import Mathlib

/-!
Verification development for the wfs-ts WFS protocol engine.

This file gives a shallow embedding in Lean 4 of the parts of the
TypeScript source that the checked claims are about:

* the generic parsed-XML tree primitive and its local-name walkers
  (`src/parsers/helpers.ts`),
* the filter compiler (`src/filters/compiler.ts`) and the GML literal
  helpers it uses (`src/serializers/gml.ts`),
* the KVP request builders (`src/operations/kvp.ts`),
* the feature-collection, transaction and geometry response parsers
  (`src/parsers/featureCollection.ts`, `src/parsers/transaction.ts`),
* the XML splice-override utility and the namespace resolver of the
  request serializers (`src/utils/xml.ts`, `src/serializers/wfs.ts`),
* the GetFeature retry logic of the operation dispatcher
  (`src/client/WfsClient.ts`).

Modelling conventions: JavaScript numbers are embedded as `Int`
(the claims under check only exercise integral literals); fallible
code is embedded with `Option`/`Except`; the external XML-text
parser (fast-xml-parser) is out of scope per the specification, so a
string payload is embedded together with the attribute/text tree that
the external primitive yields for it.
-/

/-! ## JavaScript string primitives -/

/-- Embedding of `String.prototype.toLowerCase` restricted to the ASCII
range that the source's case-insensitive substring checks rely on. -/
def lowerStr (s : String) : String := String.mk (s.data.map Char.toLower)

/-- `leadMatch needle hay` holds when `needle` is an initial segment of
`hay` (character lists). -/
def leadMatch : List Char → List Char → Bool
  | [], _ => true
  | _ :: _, [] => false
  | a :: as, b :: bs => a = b && leadMatch as bs

/-- First index at which `needle` occurs in `hay`, scanning left to
right; embeds the search of `String.prototype.indexOf`. -/
def firstSubIdx (needle : List Char) : List Char → Option Nat
  | [] => if needle.isEmpty then some 0 else none
  | c :: rest =>
    if leadMatch needle (c :: rest) then some 0
    else (firstSubIdx needle rest).map (· + 1)

/-- Embedding of `hay.indexOf(needle, start)`, with `none` for the
JavaScript result `-1`. -/
def jsIndexOfFrom (hay needle : String) (start : Nat) : Option Nat :=
  (firstSubIdx needle.data (hay.data.drop start)).map (· + start)

/-- Embedding of `hay.includes(needle)`. -/
def strContains (hay needle : String) : Bool :=
  (firstSubIdx needle.data hay.data).isSome

/-- Embedding of `s.slice(a, b)` for non-negative bounds. -/
def jsSlice (s : String) (a b : Nat) : String :=
  String.mk ((s.data.drop a).take (b - a))

/-- Embedding of `s.slice(a)` for a non-negative bound. -/
def jsSliceFrom (s : String) (a : Nat) : String :=
  String.mk (s.data.drop a)

/-- Embedding of `s.endsWith(t)`. -/
def strEndsWith (s t : String) : Bool :=
  leadMatch t.data.reverse s.data.reverse

/-- Embedding of `s.trimEnd()`. -/
def strTrimEnd (s : String) : String :=
  String.mk (s.data.reverse.dropWhile Char.isWhitespace).reverse

/-- Embedding of `s.trim()`. -/
def strTrim (s : String) : String :=
  String.mk ((s.data.dropWhile Char.isWhitespace).reverse.dropWhile
    Char.isWhitespace).reverse

/-- Embedding of `JavaScript` `Number(token)` on the integral literals
this development models: an optional sign followed by decimal digits.
Other tokens (which JavaScript would take to `NaN` or to a fractional
number) are outside the model and map to `none`. -/
def digitsVal (ds : List Char) : Nat :=
  ds.foldl (fun n c => n * 10 + (c.toNat - '0'.toNat)) 0

def jsNumO (t : String) : Option Int :=
  match t.data with
  | [] => none
  | '-' :: ds =>
    if ds ≠ [] ∧ ds.all Char.isDigit then some (-(digitsVal ds : Int))
    else none
  | '+' :: ds =>
    if ds ≠ [] ∧ ds.all Char.isDigit then some (digitsVal ds : Int)
    else none
  | ds =>
    if ds.all Char.isDigit then some (digitsVal ds : Int)
    else none

/-- Splits a string on runs of whitespace or commas, the behaviour of
`text.split(/[\s,]+/)` composed with `filter(Boolean)`. -/
def splitWsCommaAux : List Char → List Char → List String
  | acc, [] => if acc.isEmpty then [] else [String.mk acc.reverse]
  | acc, c :: rest =>
    if c.isWhitespace ∨ c = ',' then
      if acc.isEmpty then splitWsCommaAux [] rest
      else String.mk acc.reverse :: splitWsCommaAux [] rest
    else splitWsCommaAux (c :: acc) rest

def splitWsComma (s : String) : List String := splitWsCommaAux [] s.data

/-! ## The generic parsed-XML tree primitive

`parseXml` (fast-xml-parser behind `src/parsers/helpers.ts`) yields a
JSON-like value: attributes are keyed `@_name`, element text is keyed
`#text`, repeated sibling elements become arrays.  The tree type below
is the embedding of those values; `JsonArr`/`JsonObj` are spelled as
bespoke list types so that the tree walkers of `helpers.ts` can be
translated by structural recursion. -/

mutual
inductive JsonVal where
  | str (s : String)
  | num (n : Int)
  | bool (b : Bool)
  | null
  | arr (items : JsonArr)
  | obj (fields : JsonObj)
  deriving DecidableEq
inductive JsonArr where
  | nil
  | cons (v : JsonVal) (rest : JsonArr)
  deriving DecidableEq
inductive JsonObj where
  | nil
  | cons (key : String) (v : JsonVal) (rest : JsonObj)
  deriving DecidableEq
end

def JsonArr.toList : JsonArr → List JsonVal
  | .nil => []
  | .cons v rest => v :: rest.toList

def JsonObj.toList : JsonObj → List (String × JsonVal)
  | .nil => []
  | .cons k v rest => (k, v) :: rest.toList

/-- First value stored under `key`, the embedding of property access on
a plain JavaScript object. -/
def JsonObj.get : JsonObj → String → Option JsonVal
  | .nil, _ => none
  | .cons k v rest, key => if k = key then some v else rest.get key

/-- Property access `v[key]` for the value shapes the walkers meet:
only plain objects expose the attribute keys the source reads. -/
def jsIndex : JsonVal → String → Option JsonVal
  | .obj fields, key => fields.get key
  | _, _ => none

/-- Truthiness of a tree value, embedding the JavaScript coercion the
source's `!!value` and `if (value)` guards perform. -/
def jsTruthy : JsonVal → Bool
  | .str s => s ≠ ""
  | .num n => n ≠ 0
  | .bool b => b
  | .null => false
  | .arr _ => true
  | .obj _ => true

/-- `typeof v === "object" && v` — arrays and plain objects pass, and
`null` is excluded by the truthiness guard the source always pairs the
check with. -/
def isObjLike : JsonVal → Bool
  | .arr _ => true
  | .obj _ => true
  | _ => false

/-- Coalescing access `v[key] ?? …`: a stored `null` behaves like an
absent key under the `??` operator. -/
def jsIndexCo (v : JsonVal) (key : String) : Option JsonVal :=
  match jsIndex v key with
  | some .null => none
  | o => o

/-- `localName` of `src/parsers/helpers.ts`: strips everything up to
the first colon. -/
def localName (name : String) : String :=
  match firstSubIdx [':'] name.data with
  | some i => String.mk (name.data.drop (i + 1))
  | none => name

/-- `asArray` of `src/utils/xml.ts` applied to a present value. -/
def asArrayJ : JsonVal → List JsonVal
  | .null => []
  | .arr items => items.toList
  | v => [v]

/-- `asArray` applied to a possibly absent value. -/
def asArrayO : Option JsonVal → List JsonVal
  | none => []
  | some v => asArrayJ v

/-! JavaScript `String(v)` on tree values (array elements that are
`null` stringify to the empty string inside a join). -/
mutual
def jsToString : JsonVal → String
  | .str s => s
  | .num n => toString n
  | .bool b => if b then "true" else "false"
  | .null => "null"
  | .arr items => jsArrJoin items
  | .obj _ => "[object Object]"
def jsArrJoin : JsonArr → String
  | .nil => ""
  | .cons v .nil => (match v with | .null => "" | w => jsToString w)
  | .cons v rest =>
    (match v with | .null => "" | w => jsToString w) ++ "," ++ jsArrJoin rest
end

/-! `valueText` of `src/parsers/helpers.ts`: the first text content
reachable from a node, skipping attribute keys. -/
mutual
def valueText : JsonVal → Option String
  | .str s => some s
  | .num n => some (toString n)
  | .bool b => some (if b then "true" else "false")
  | .null => none
  | .arr items => valueTextArr items
  | .obj fields =>
    match fields.get "#text" with
    | some .null => valueTextFields fields
    | some direct => some (jsToString direct)
    | none => valueTextFields fields
def valueTextArr : JsonArr → Option String
  | .nil => none
  | .cons v rest =>
    match valueText v with
    | some t => some t
    | none => valueTextArr rest
def valueTextFields : JsonObj → Option String
  | .nil => none
  | .cons k v rest =>
    if leadMatch "@_".data k.data then valueTextFields rest
    else
      match valueText v with
      | some t => some t
      | none => valueTextFields rest
end

def valueTextO : Option JsonVal → Option String
  | none => none
  | some v => valueText v

/-! `getNodeByLocalName` of `src/parsers/helpers.ts`: depth-first
search for the first object-valued entry whose key has the wanted
local name.  `Object.entries` of an array enumerates index keys, which
the `Arr` branch reproduces. -/
mutual
def getNodeByLocalName : JsonVal → String → Option JsonVal
  | .obj fields, expected => getNodeFields fields expected
  | .arr items, expected => getNodeArr items 0 expected
  | _, _ => none
def getNodeFields : JsonObj → String → Option JsonVal
  | .nil, _ => none
  | .cons k v rest, expected =>
    if localName k = expected ∧ isObjLike v then some v
    else
      match (if isObjLike v then getNodeByLocalName v expected else none) with
      | some nested => some nested
      | none => getNodeFields rest expected
def getNodeArr : JsonArr → Nat → String → Option JsonVal
  | .nil, _, _ => none
  | .cons v rest, i, expected =>
    if localName (toString i) = expected ∧ isObjLike v then some v
    else
      match (if isObjLike v then getNodeByLocalName v expected else none) with
      | some nested => some nested
      | none => getNodeArr rest (i + 1) expected
end

/-! `collectNodesByLocalName` of `src/parsers/helpers.ts`: every
object-valued item stored (directly or one array level deep) under a
key with the wanted local name, in document order. -/
mutual
def collectNodesByLocalName : JsonVal → String → List JsonVal
  | .obj fields, expected => collectNodesFields fields expected
  | .arr items, expected => collectNodesArr items 0 expected
  | _, _ => []
def collectNodesFields : JsonObj → String → List JsonVal
  | .nil, _ => []
  | .cons k v rest, expected =>
    (if localName k = expected then (asArrayJ v).filter isObjLike else [])
      ++ (if isObjLike v then collectNodesByLocalName v expected else [])
      ++ collectNodesFields rest expected
def collectNodesArr : JsonArr → Nat → String → List JsonVal
  | .nil, _, _ => []
  | .cons v rest, i, expected =>
    (if localName (toString i) = expected then (asArrayJ v).filter isObjLike
     else [])
      ++ (if isObjLike v then collectNodesByLocalName v expected else [])
      ++ collectNodesArr rest (i + 1) expected
end

/-! `collectTextValuesByLocalName` of `src/parsers/helpers.ts`. -/
mutual
def collectTextsByLocalName : JsonVal → String → List String
  | .obj fields, expected => collectTextsFields fields expected
  | .arr items, expected => collectTextsArr items 0 expected
  | _, _ => []
def collectTextsFields : JsonObj → String → List String
  | .nil, _ => []
  | .cons k v rest, expected =>
    (if localName k = expected then (asArrayJ v).filterMap valueText else [])
      ++ (if isObjLike v then collectTextsByLocalName v expected else [])
      ++ collectTextsFields rest expected
def collectTextsArr : JsonArr → Nat → String → List String
  | .nil, _, _ => []
  | .cons v rest, i, expected =>
    (if localName (toString i) = expected then (asArrayJ v).filterMap valueText
     else [])
      ++ (if isObjLike v then collectTextsByLocalName v expected else [])
      ++ collectTextsArr rest (i + 1) expected
end

/-- `parseNumbers` of `src/parsers/helpers.ts`: trim, split on
whitespace/comma runs, convert each token (tokens outside the integral
model are represented by `0`). -/
def parseNumbers (text : String) : List Int :=
  ((splitWsComma (strTrim text)).filter (· ≠ "")).map fun t => (jsNumO t).getD 0

/-! ## Protocol versions and XML text helpers -/

/-- The `WfsVersion` union type of `src/types.ts`. -/
inductive WfsVersionL where
  | v202
  | v200
  | v110
  deriving DecidableEq

def versionStr : WfsVersionL → String
  | .v202 => "2.0.2"
  | .v200 => "2.0.0"
  | .v110 => "1.1.0"

/-- One character of `escapeXml`; the source's five sequential global
replaces commute with a per-character map because no replacement output
re-triggers a later replace. -/
def escChar (c : Char) : String :=
  if c = '&' then "&amp;"
  else if c = '<' then "&lt;"
  else if c = '>' then "&gt;"
  else if c = '"' then "&quot;"
  else if c = '\'' then "&apos;"
  else String.mk [c]

/-- `escapeXml` of `src/utils/xml.ts` applied to a string value. -/
def escapeXml (s : String) : String :=
  String.join (s.data.map escChar)

/-- `xmlAttr` of `src/utils/xml.ts`: emits nothing for an absent or
empty value (the `undefined`/`null`/`""` guard); numeric and boolean
call sites pass the value through `String(...)` first. -/
def xmlAttr (name : String) (value : Option String) : String :=
  match value with
  | none => ""
  | some s => if s = "" then "" else " " ++ name ++ "=\"" ++ escapeXml s ++ "\""

/-- JSON string quoting used by `JSON.stringify` on the string shapes
this development models (control-character escapes are outside the
model). -/
def jsonQuote (s : String) : String :=
  "\"" ++ String.join (s.data.map fun c =>
    if c = '"' then "\\\"" else if c = '\\' then "\\\\" else String.mk [c]) ++ "\""

/-! `JSON.stringify` on tree values. -/
mutual
def jsonStringify : JsonVal → String
  | .str s => jsonQuote s
  | .num n => toString n
  | .bool b => if b then "true" else "false"
  | .null => "null"
  | .arr items => "[" ++ jsonStringifyArr items ++ "]"
  | .obj fields => "\x7b" ++ jsonStringifyObj fields ++ "\x7d"
def jsonStringifyArr : JsonArr → String
  | .nil => ""
  | .cons v .nil => jsonStringify v
  | .cons v rest => jsonStringify v ++ "," ++ jsonStringifyArr rest
def jsonStringifyObj : JsonObj → String
  | .nil => ""
  | .cons k v .nil => jsonQuote k ++ ":" ++ jsonStringify v
  | .cons k v rest => jsonQuote k ++ ":" ++ jsonStringify v ++ "," ++ jsonStringifyObj rest
end

/-- `literalToXml` of `src/serializers/gml.ts`. -/
def literalToXml : JsonVal → String
  | .null => ""
  | .str s => escapeXml s
  | .num n => escapeXml (toString n)
  | .bool b => escapeXml (if b then "true" else "false")
  | v => escapeXml (jsonStringify v)

/-- `qNameValueReference` of `src/serializers/gml.ts`. -/
def qNameValueReference (value : String) (version : WfsVersionL) : String :=
  let pfx := if version = .v110 then "ogc" else "fes"
  let element := if version = .v110 then "PropertyName" else "ValueReference"
  "<" ++ pfx ++ ":" ++ element ++ ">" ++ escapeXml value ++ "</" ++ pfx ++ ":" ++ element ++ ">"

/-! ## GeoJSON geometries and the GML encoder -/

/-- GeoJSON geometry with positions embedded over `Int`. -/
inductive GeometryL where
  | point (coordinates : List Int)
  | lineString (coordinates : List (List Int))
  | polygon (coordinates : List (List (List Int)))
  | multiPoint (coordinates : List (List Int))
  | multiLineString (coordinates : List (List (List Int)))
  | multiPolygon (coordinates : List (List (List (List Int)))) 
  deriving DecidableEq

/-- `position.join(" ")`. -/
def coordsStr (position : List Int) : String :=
  String.intercalate " " (position.map toString)

/-- `positions.map((p) => p.join(" ")).join(" ")`. -/
def coordListStr (positions : List (List Int)) : String :=
  String.intercalate " " (positions.map coordsStr)

/-- `polygonToGml` of `src/serializers/gml.ts`. -/
def polygonToGml (rings : List (List (List Int))) (gmlPfx srsAttr : String) : String :=
  let outer := rings.headD []
  let inners := rings.drop 1
  "<" ++ gmlPfx ++ ":Polygon" ++ srsAttr ++ "><" ++ gmlPfx ++ ":exterior><" ++ gmlPfx
    ++ ":LinearRing><" ++ gmlPfx ++ ":posList>" ++ coordListStr outer ++ "</" ++ gmlPfx
    ++ ":posList></" ++ gmlPfx ++ ":LinearRing></" ++ gmlPfx ++ ":exterior>"
    ++ String.join (inners.map fun inner =>
      "<" ++ gmlPfx ++ ":interior><" ++ gmlPfx ++ ":LinearRing><" ++ gmlPfx ++ ":posList>"
        ++ coordListStr inner ++ "</" ++ gmlPfx ++ ":posList></" ++ gmlPfx
        ++ ":LinearRing></" ++ gmlPfx ++ ":interior>")
    ++ "</" ++ gmlPfx ++ ":Polygon>"

structure GeometryToGmlOptionsL where
  version : WfsVersionL
  srsName : Option String
  deriving DecidableEq

/-- `geometryToGml` of `src/serializers/gml.ts` (the source computes
the same `"gml"` element prefix for both versions). -/
def geometryToGml (geometry : GeometryL) (options : GeometryToGmlOptionsL) : String :=
  let gmlPfx := "gml"
  let srsAttr := xmlAttr "srsName" options.srsName
  match geometry with
  | .point c =>
    "<" ++ gmlPfx ++ ":Point" ++ srsAttr ++ "><" ++ gmlPfx ++ ":pos>" ++ coordsStr c
      ++ "</" ++ gmlPfx ++ ":pos></" ++ gmlPfx ++ ":Point>"
  | .lineString cs =>
    "<" ++ gmlPfx ++ ":LineString" ++ srsAttr ++ "><" ++ gmlPfx ++ ":posList>"
      ++ coordListStr cs ++ "</" ++ gmlPfx ++ ":posList></" ++ gmlPfx ++ ":LineString>"
  | .polygon rings => polygonToGml rings gmlPfx srsAttr
  | .multiPoint points =>
    "<" ++ gmlPfx ++ ":MultiPoint" ++ srsAttr ++ ">"
      ++ String.join (points.map fun point =>
        "<" ++ gmlPfx ++ ":pointMember><" ++ gmlPfx ++ ":Point><" ++ gmlPfx ++ ":pos>"
          ++ coordsStr point ++ "</" ++ gmlPfx ++ ":pos></" ++ gmlPfx ++ ":Point></"
          ++ gmlPfx ++ ":pointMember>")
      ++ "</" ++ gmlPfx ++ ":MultiPoint>"
  | .multiLineString lines =>
    "<" ++ gmlPfx ++ ":MultiLineString" ++ srsAttr ++ ">"
      ++ String.join (lines.map fun line =>
        "<" ++ gmlPfx ++ ":lineStringMember><" ++ gmlPfx ++ ":LineString><" ++ gmlPfx
          ++ ":posList>" ++ coordListStr line ++ "</" ++ gmlPfx ++ ":posList></"
          ++ gmlPfx ++ ":LineString></" ++ gmlPfx ++ ":lineStringMember>")
      ++ "</" ++ gmlPfx ++ ":MultiLineString>"
  | .multiPolygon polygons =>
    "<" ++ gmlPfx ++ ":MultiPolygon" ++ srsAttr ++ ">"
      ++ String.join (polygons.map fun polygon =>
        "<" ++ gmlPfx ++ ":polygonMember>" ++ polygonToGml polygon gmlPfx ""
          ++ "</" ++ gmlPfx ++ ":polygonMember>")
      ++ "</" ++ gmlPfx ++ ":MultiPolygon>"

/-! ## The filter expression algebra and its compiler -/

inductive LogicalOpL where
  | andOp
  | orOp
  | notOp
  deriving DecidableEq

inductive ComparisonOpL where
  | eq
  | neq
  | lt
  | lte
  | gt
  | gte
  deriving DecidableEq

inductive SpatialOpL where
  | bbox
  | intersects
  | within
  | contains
  | disjoint
  | touches
  | overlaps
  | crosses
  deriving DecidableEq

/-! The `WfsFilter` variant type of `src/filters/types.ts`.  The extra
`unknownOp` constructor stands for any runtime value whose `op` tag is
none of the known operators — such values are expressible in the
source's dynamic semantics and hit the compiler's `default` branch. -/
mutual
inductive WfsFilterL where
  | logical (op : LogicalOpL) (filters : WfsFilterList)
  | comparison (op : ComparisonOpL) (property : String) (value : JsonVal)
      (matchCase : Option Bool)
  | like (property : String) (value : String)
      (wildCard singleChar escapeChar : Option String) (matchCase : Option Bool)
  | between (property : String) (lower upper : JsonVal)
  | isNull (property : String)
  | idFilter (ids : List String)
  | spatial (op : SpatialOpL) (property : String) (geometry : GeometryL)
      (srsName : Option String)
  | unknownOp (op : String)
  deriving DecidableEq
inductive WfsFilterList where
  | nil
  | cons (f : WfsFilterL) (rest : WfsFilterList)
  deriving DecidableEq
end

structure CompileFilterOptionsL where
  version : WfsVersionL
  srsName : Option String
  includeNamespaceDeclarations : Bool
  deriving DecidableEq

/-- `COMPARISON_TAG_MAP` of `src/filters/compiler.ts`. -/
def COMPARISON_TAG_MAP : ComparisonOpL → String
  | .eq => "PropertyIsEqualTo"
  | .neq => "PropertyIsNotEqualTo"
  | .lt => "PropertyIsLessThan"
  | .lte => "PropertyIsLessThanOrEqualTo"
  | .gt => "PropertyIsGreaterThan"
  | .gte => "PropertyIsGreaterThanOrEqualTo"

/-- `SPATIAL_TAG_MAP` of `src/filters/compiler.ts`. -/
def SPATIAL_TAG_MAP : SpatialOpL → String
  | .bbox => "BBOX"
  | .intersects => "Intersects"
  | .within => "Within"
  | .contains => "Contains"
  | .disjoint => "Disjoint"
  | .touches => "Touches"
  | .overlaps => "Overlaps"
  | .crosses => "Crosses"

def filterNamespaceAttrs (version : WfsVersionL) : String :=
  if version = .v110 then
    " xmlns:ogc=\"http://www.opengis.net/ogc\" xmlns:gml=\"http://www.opengis.net/gml\""
  else
    " xmlns:fes=\"http://www.opengis.net/fes/2.0\" xmlns:gml=\"http://www.opengis.net/gml/3.2\""

/-- `compileComparisonFilter` of `src/filters/compiler.ts`. -/
def compileComparisonFilter (op : ComparisonOpL) (property : String) (value : JsonVal)
    (matchCase : Option Bool) (version : WfsVersionL) : String :=
  let pfx := if version = .v110 then "ogc" else "fes"
  let tag := COMPARISON_TAG_MAP op
  "<" ++ pfx ++ ":" ++ tag ++ xmlAttr "matchCase" (matchCase.map fun b => if b then "true" else "false")
    ++ ">" ++ qNameValueReference property version
    ++ "<" ++ pfx ++ ":Literal>" ++ literalToXml value ++ "</" ++ pfx ++ ":Literal></"
    ++ pfx ++ ":" ++ tag ++ ">"

/-- `compileLikeFilter` of `src/filters/compiler.ts`: the wildcard
markers are re-emitted even when defaulted. -/
def compileLikeFilter (property value : String)
    (wildCard singleChar escapeChar : Option String) (matchCase : Option Bool)
    (version : WfsVersionL) : String :=
  let pfx := if version = .v110 then "ogc" else "fes"
  "<" ++ pfx ++ ":PropertyIsLike" ++ xmlAttr "wildCard" (some (wildCard.getD "*"))
    ++ xmlAttr "singleChar" (some (singleChar.getD "."))
    ++ xmlAttr "escapeChar" (some (escapeChar.getD "!"))
    ++ xmlAttr "matchCase" (matchCase.map fun b => if b then "true" else "false")
    ++ ">" ++ qNameValueReference property version
    ++ "<" ++ pfx ++ ":Literal>" ++ escapeXml value ++ "</" ++ pfx
    ++ ":Literal></" ++ pfx ++ ":PropertyIsLike>"

/-- `compileBetweenFilter` of `src/filters/compiler.ts`. -/
def compileBetweenFilter (property : String) (lower upper : JsonVal)
    (version : WfsVersionL) : String :=
  let pfx := if version = .v110 then "ogc" else "fes"
  "<" ++ pfx ++ ":PropertyIsBetween>" ++ qNameValueReference property version
    ++ "<" ++ pfx ++ ":LowerBoundary><" ++ pfx ++ ":Literal>" ++ literalToXml lower
    ++ "</" ++ pfx ++ ":Literal></" ++ pfx ++ ":LowerBoundary><" ++ pfx
    ++ ":UpperBoundary><" ++ pfx ++ ":Literal>" ++ literalToXml upper
    ++ "</" ++ pfx ++ ":Literal></" ++ pfx ++ ":UpperBoundary></" ++ pfx
    ++ ":PropertyIsBetween>"

/-- `compileNullFilter` of `src/filters/compiler.ts`. -/
def compileNullFilter (property : String) (version : WfsVersionL) : String :=
  let pfx := if version = .v110 then "ogc" else "fes"
  "<" ++ pfx ++ ":PropertyIsNull>" ++ qNameValueReference property version
    ++ "</" ++ pfx ++ ":PropertyIsNull>"

/-- `compileIdFilter` of `src/filters/compiler.ts`: `ogc:FeatureId`
elements with `fid` attributes under 1.1.0, `fes:ResourceId` elements
with `rid` attributes under 2.0.x. -/
def compileIdFilter (ids : List String) (version : WfsVersionL) : String :=
  if version = .v110 then
    String.join (ids.map fun id => "<ogc:FeatureId fid=\"" ++ escapeXml id ++ "\"/>")
  else
    String.join (ids.map fun id => "<fes:ResourceId rid=\"" ++ escapeXml id ++ "\"/>")

/-- The positions `geometryBounds`' recursive `collect` gathers: every
bottom-level coordinate list of length at least two. -/
def geomPositions : GeometryL → List (List Int)
  | .point c => if c.length ≥ 2 then [c] else []
  | .lineString cs => cs.filter (fun p => p.length ≥ 2)
  | .multiPoint cs => cs.filter (fun p => p.length ≥ 2)
  | .polygon rings => (rings.map (fun r => r.filter (fun p => p.length ≥ 2))).flatten
  | .multiLineString lines =>
    (lines.map (fun r => r.filter (fun p => p.length ≥ 2))).flatten
  | .multiPolygon polygons =>
    ((polygons.map (fun rings =>
      (rings.map (fun r => r.filter (fun p => p.length ≥ 2))).flatten)).flatten)

/-- `geometryBounds` of `src/filters/compiler.ts`: the axis-aligned
envelope of all collected positions, `[0,0,0,0]` when there are none
(the fold from infinities over a non-empty list equals a fold from the
first element). -/
def geometryBounds (geometry : GeometryL) : Int × Int × Int × Int :=
  match geomPositions geometry with
  | [] => (0, 0, 0, 0)
  | p :: rest =>
    let xs := (p :: rest).map fun q => q.headD 0
    let ys := (p :: rest).map fun q => (q.drop 1).headD 0
    (xs.foldl min (xs.headD 0), ys.foldl min (ys.headD 0),
     xs.foldl max (xs.headD 0), ys.foldl max (ys.headD 0))

/-- `compileSpatialFilter` of `src/filters/compiler.ts`. -/
def compileSpatialFilter (op : SpatialOpL) (property : String) (geometry : GeometryL)
    (srsName : Option String) (options : CompileFilterOptionsL) : String :=
  let pfx := if options.version = .v110 then "ogc" else "fes"
  let tag := SPATIAL_TAG_MAP op
  if op = .bbox then
    let bounds := geometryBounds geometry
    "<" ++ pfx ++ ":" ++ tag ++ ">" ++ qNameValueReference property options.version
      ++ "<gml:Envelope" ++ xmlAttr "srsName" (srsName <|> options.srsName)
      ++ "><gml:lowerCorner>" ++ toString bounds.1 ++ " " ++ toString bounds.2.1
      ++ "</gml:lowerCorner><gml:upperCorner>" ++ toString bounds.2.2.1 ++ " "
      ++ toString bounds.2.2.2 ++ "</gml:upperCorner></gml:Envelope></"
      ++ pfx ++ ":" ++ tag ++ ">"
  else
    "<" ++ pfx ++ ":" ++ tag ++ ">" ++ qNameValueReference property options.version
      ++ geometryToGml geometry
        { version := options.version, srsName := srsName <|> options.srsName }
      ++ "</" ++ pfx ++ ":" ++ tag ++ ">"

/-! `compileFilterBody` and `compileLogicalFilter` of
`src/filters/compiler.ts`; the unknown-operator `default` branch
compiles to the empty string. -/
mutual
def compileFilterBody (filter : WfsFilterL) (options : CompileFilterOptionsL) : String :=
  match filter with
  | .logical op filters =>
    let pfx := if options.version = .v110 then "ogc" else "fes"
    (match op with
     | .notOp =>
       (match filters with
        | .nil => ""
        | .cons first _ =>
          "<" ++ pfx ++ ":Not>" ++ compileFilterBody first options
            ++ "</" ++ pfx ++ ":Not>")
     | .andOp =>
       "<" ++ pfx ++ ":And>" ++ compileFilterListJoin filters options
         ++ "</" ++ pfx ++ ":And>"
     | .orOp =>
       "<" ++ pfx ++ ":Or>" ++ compileFilterListJoin filters options
         ++ "</" ++ pfx ++ ":Or>")
  | .comparison op property value matchCase =>
    compileComparisonFilter op property value matchCase options.version
  | .like property value wildCard singleChar escapeChar matchCase =>
    compileLikeFilter property value wildCard singleChar escapeChar matchCase
      options.version
  | .between property lower upper =>
    compileBetweenFilter property lower upper options.version
  | .isNull property => compileNullFilter property options.version
  | .idFilter ids => compileIdFilter ids options.version
  | .spatial op property geometry srsName =>
    compileSpatialFilter op property geometry srsName options
  | .unknownOp _ => ""
def compileFilterListJoin (filters : WfsFilterList) (options : CompileFilterOptionsL) :
    String :=
  match filters with
  | .nil => ""
  | .cons f rest => compileFilterBody f options ++ compileFilterListJoin rest options
end

/-- `compileFilterXml` of `src/filters/compiler.ts`. -/
def compileFilterXml (filter : WfsFilterL) (options : CompileFilterOptionsL) : String :=
  let pfx := if options.version = .v110 then "ogc" else "fes"
  let nsAttrs :=
    if options.includeNamespaceDeclarations then filterNamespaceAttrs options.version
    else ""
  "<" ++ pfx ++ ":Filter" ++ nsAttrs ++ ">" ++ compileFilterBody filter options
    ++ "</" ++ pfx ++ ":Filter>"

/-! ## KVP request builders (`src/operations/kvp.ts`) -/

/-- `params[k] = v` on a JavaScript object embedded as an ordered
association list: an existing key is overwritten in place, a new key
is appended. -/
def objUpd (m : List (String × String)) (k v : String) : List (String × String) :=
  if m.any (fun p => p.1 = k) then
    m.map fun p => if p.1 = k then (k, v) else p
  else m ++ [(k, v)]

/-- `Object.assign(params, extra)`. -/
def objAssign (m extra : List (String × String)) : List (String × String) :=
  extra.foldl (fun acc p => objUpd acc p.1 p.2) m

/-- Property read `params[k]`. -/
def kvpGet (m : List (String × String)) (k : String) : Option String :=
  (m.find? (fun p => p.1 = k)).map (·.2)

/-- A `params[k] = v` assignment guarded by a presence test
(the source's `typeof x === "number"` / `x !== undefined` guards). -/
def setOpt (m : List (String × String)) (k : String) (v : Option String) :
    List (String × String) :=
  match v with
  | some s => objUpd m k s
  | none => m

/-- A `params[k] = v` assignment guarded by a truthiness test (the
source's `if (options.x)` guards, which also skip the empty string). -/
def setTruthy (m : List (String × String)) (k : String) (v : Option String) :
    List (String × String) :=
  match v with
  | some s => if s = "" then m else objUpd m k s
  | none => m

inductive XmlPositionL where
  | before
  | after
  | replace
  deriving DecidableEq

/-- `XmlOverride` of `src/types.ts`. -/
structure XmlOverrideL where
  target : String
  position : Option XmlPositionL
  xml : String
  deriving DecidableEq

/-- `RawRequestOptions` of `src/types.ts`. -/
structure RawRequestOptionsL where
  kvp : Option (List (String × String))
  xmlOverrides : Option (List XmlOverrideL)
  headers : Option (List (String × String))
  deriving DecidableEq

/-- `GeoServerOptions` of `src/types.ts`. -/
structure GeoServerOptionsL where
  cqlFilter : Option String
  viewParams : Option String
  formatOptions : Option String
  vendorParams : Option (List (String × String))
  xmlHints : Option (List String)
  deriving DecidableEq

/-- `GetFeatureOptions` of `src/types.ts`, restricted to the fields the
request builders read.  `resolveDepth` (`number | "*"`) is embedded by
its `String(...)` image, which is the only way the builders use it. -/
structure GetFeatureOptionsL where
  typeNames : List String
  outputFormat : Option String
  srsName : Option String
  propertyNames : Option (List String)
  filter : Option WfsFilterL
  bbox : Option (Int × Int × Int × Int)
  geoserver : Option GeoServerOptionsL
  startIndex : Option Int
  count : Option Int
  resultType : Option String
  resolve : Option String
  resolveDepth : Option String
  resolveTimeout : Option Int
  raw : Option RawRequestOptionsL
  deriving DecidableEq

/-- A `GetFeatureOptions` value with every optional field absent. -/
def gfoBase : GetFeatureOptionsL :=
  ⟨[], none, none, none, none, none, none, none, none, none, none, none, none, none⟩

/-- The `bbox` KVP value: `bbox.join(",")` with the srsName appended
when truthy. -/
def renderBboxParam (b : Int × Int × Int × Int) (srsName : Option String) : String :=
  String.intercalate ","
      [toString b.1, toString b.2.1, toString b.2.2.1, toString b.2.2.2]
    ++ (match srsName with
        | some s => if s = "" then "" else "," ++ s
        | none => "")

/-- `applyGeoServerParams` of `src/operations/kvp.ts`. -/
def applyGeoServerParams (params : List (String × String))
    (geoserver : Option GeoServerOptionsL) : List (String × String) :=
  match geoserver with
  | none => params
  | some gs =>
    let params := setTruthy params "cql_filter" gs.cqlFilter
    let params := setTruthy params "viewParams" gs.viewParams
    let params := setTruthy params "format_options" gs.formatOptions
    match gs.vendorParams with
    | some vp => objAssign params vp
    | none => params

/-- `buildGetFeatureKvp` of `src/operations/kvp.ts`. -/
def buildGetFeatureKvp (options : GetFeatureOptionsL) (version : WfsVersionL) :
    List (String × String) :=
  let typeParamName := if version = .v110 then "typeName" else "typeNames"
  let params : List (String × String) :=
    [("service", "WFS"), ("version", versionStr version), ("request", "GetFeature"),
     (typeParamName, String.intercalate "," options.typeNames)]
  let params := setTruthy params "outputFormat" options.outputFormat
  let params := setTruthy params "srsName" options.srsName
  let params := setOpt params "propertyName"
    (options.propertyNames.bind fun ps =>
      if ps.length ≠ 0 then some (String.intercalate "," ps) else none)
  let params := setOpt params "startIndex" (options.startIndex.map toString)
  let params :=
    match options.count with
    | some n =>
      if version = .v110 then objUpd params "maxFeatures" (toString n)
      else objUpd params "count" (toString n)
    | none => params
  let params := setTruthy params "resultType" options.resultType
  let params := setOpt params "filter"
    (options.filter.map fun f =>
      compileFilterXml f
        { version := version, srsName := none, includeNamespaceDeclarations := true })
  let params := setOpt params "bbox"
    (options.bbox.map fun b => renderBboxParam b options.srsName)
  let params := setTruthy params "resolve" options.resolve
  let params := setOpt params "resolveDepth" options.resolveDepth
  let params := setOpt params "resolveTimeout" (options.resolveTimeout.map toString)
  let params := applyGeoServerParams params options.geoserver
  objAssign params ((options.raw.bind (·.kvp)).getD [])

/-! ## Axis-order policy (`maybeSwap` of `src/parsers/helpers.ts`) -/

inductive AxisOrderStrategyL where
  | preserve
  | forceLonLat
  | forceLatLon
  deriving DecidableEq

/-- `[coords[1], coords[0], ...coords.slice(2)]`; the source only
builds this for lists of length at least two, where it coincides with
this head swap. -/
def swap12 : List Int → List Int
  | a :: b :: rest => b :: a :: rest
  | l => l

/-- `maybeSwap` of `src/parsers/helpers.ts`: the EPSG:4326 test is a
case-insensitive substring match for `"4326"` on the governing
reference-system name. -/
def maybeSwap (coords : List Int) (strategy : AxisOrderStrategyL)
    (srsName : Option String) : List Int :=
  if coords.length < 2 ∨ strategy = .preserve then coords
  else
    let lower := lowerStr (srsName.getD "")
    let is4326 := strContains lower "4326"
    match strategy with
    | .forceLonLat => if ¬is4326 then coords else swap12 coords
    | .forceLatLon => if is4326 then coords else swap12 coords
    | .preserve => coords

/-! ## Geometry decoding (`src/parsers/featureCollection.ts`) -/

/-- `extractNodeTextByLocalName`: shallow scan of a node's entries for
a key with the wanted local name that yields text. -/
def extractTextFields : JsonObj → String → Option String
  | .nil, _ => none
  | .cons k v rest, nodeName =>
    if localName k = nodeName then
      match valueText v with
      | some t => some t
      | none => extractTextFields rest nodeName
    else extractTextFields rest nodeName

def extractTextArr : JsonArr → Nat → String → Option String
  | .nil, _, _ => none
  | .cons v rest, i, nodeName =>
    if localName (toString i) = nodeName then
      match valueText v with
      | some t => some t
      | none => extractTextArr rest (i + 1) nodeName
    else extractTextArr rest (i + 1) nodeName

def extractNodeTextByLocalName : JsonVal → String → Option String
  | .obj fields, nodeName => extractTextFields fields nodeName
  | .arr items, nodeName => extractTextArr items 0 nodeName
  | _, _ => none

/-- `inferDimension`: the inherited/declared `srsDimension` with floor
two, defaulting to two. -/
def inferDimension (value : JsonVal) : Nat :=
  match value with
  | .obj fields =>
    match fields.get "@_srsDimension" with
    | some (.num n) => max 2 n.toNat
    | some (.str s) =>
      match jsNumO s with
      | some n => max 2 n.toNat
      | none => 2
    | _ => 2
  | _ => 2

/-- `toPositions`: chunk a flat number list into positions of the
given dimension, keeping only chunks of length at least two.  The
zero-dimension guard is unreachable from the source's call sites,
which always pass a dimension of at least two. -/
def toPositionsAux (dim : Nat) : List Int → List Int → Nat → List (List Int)
  | acc, [], _ =>
    let chunk := acc.reverse
    if chunk.length ≥ 2 then [chunk] else []
  | acc, n :: rest, k =>
    if k ≤ 1 then
      let chunk := (n :: acc).reverse
      (if chunk.length ≥ 2 then [chunk] else []) ++ toPositionsAux dim [] rest dim
    else toPositionsAux dim (n :: acc) rest (k - 1)

def toPositions (numbers : List Int) (dimension : Nat) : List (List Int) :=
  if dimension = 0 then [] else toPositionsAux dimension [] numbers dimension

/-- `parsePoint` of `src/parsers/featureCollection.ts`. -/
def parsePoint (value : JsonVal) (strategy : AxisOrderStrategyL)
    (srsName : Option String) : Option GeometryL :=
  match (extractNodeTextByLocalName value "pos") <|>
        (extractNodeTextByLocalName value "coordinates") with
  | none => none
  | some text =>
    if text = "" then none
    else
      let coords := parseNumbers text
      if coords.length < 2 then none
      else some (.point (maybeSwap coords strategy srsName))

/-- `parseLineString` of `src/parsers/featureCollection.ts`; a single
decoded position is materialised as a two-point line. -/
def parseLineString (value : JsonVal) (strategy : AxisOrderStrategyL)
    (srsName : Option String) : Option GeometryL :=
  match (extractNodeTextByLocalName value "posList") <|>
        (extractNodeTextByLocalName value "coordinates") <|>
        (extractNodeTextByLocalName value "pos") with
  | none => none
  | some text =>
    if text = "" then none
    else
      let dims := inferDimension value
      let positions := (toPositions (parseNumbers text) dims).map
        fun p => maybeSwap p strategy srsName
      match positions with
      | [p] => some (.lineString [p, p])
      | ps => some (.lineString ps)

/-- One path step of `extractNodeByPath`: the first entry whose key
has the wanted local name. -/
def pathStepFields : JsonObj → String → Option JsonVal
  | .nil, _ => none
  | .cons k v rest, seg => if localName k = seg then some v else pathStepFields rest seg

def pathStepArr : JsonArr → Nat → String → Option JsonVal
  | .nil, _, _ => none
  | .cons v rest, i, seg =>
    if localName (toString i) = seg then some v else pathStepArr rest (i + 1) seg

def pathStep : JsonVal → String → Option JsonVal
  | .obj fields, seg => pathStepFields fields seg
  | .arr items, seg => pathStepArr items 0 seg
  | _, _ => none

/-- `extractNodeByPath` of `src/parsers/featureCollection.ts`: walk
local-named segments (taking the first element of an array-valued
step), then return the text of an object endpoint or the primitive
endpoint itself. -/
def extractNodeByPathAux : Option JsonVal → List String → Option JsonVal
  | none, _ => none
  | some current, [] =>
    match current with
    | .null => none
    | .arr _ => (valueText current).map JsonVal.str
    | .obj _ => (valueText current).map JsonVal.str
    | v => some v
  | some current, seg :: restPath =>
    if ¬isObjLike current then none
    else
      match pathStep current seg with
      | none => none
      | some next =>
        let nextO : Option JsonVal :=
          match next with
          | .arr items => items.toList.head?
          | v => some v
        extractNodeByPathAux nextO restPath

def extractNodeByPath (value : JsonVal) (path : List String) : Option JsonVal :=
  extractNodeByPathAux (some value) path

/-- `parsePolygon` of `src/parsers/featureCollection.ts`.  (The
`interior` path of the source first takes the interior node's text, so
interior rings never survive the subsequent LinearRing lookup; the
embedding reproduces that behaviour.) -/
def parsePolygon (value : JsonVal) (strategy : AxisOrderStrategyL)
    (srsName : Option String) : Option GeometryL :=
  if ¬isObjLike value then none
  else
    let exteriorO :=
      (extractNodeByPath value ["exterior", "LinearRing", "posList"]) <|>
        (extractNodeByPath value ["outerBoundaryIs", "LinearRing", "coordinates"])
    let ringsExterior :=
      match exteriorO with
      | some ext =>
        if jsTruthy ext then
          [(toPositions (parseNumbers (jsToString ext)) (inferDimension value)).map
            fun p => maybeSwap p strategy srsName]
        else []
      | none => []
    let interiorNodes :=
      asArrayO (extractNodeByPath value ["interior"]) ++
        asArrayO (extractNodeByPath value ["innerBoundaryIs"])
    let ringsInterior := interiorNodes.filterMap fun interior =>
      match (extractNodeByPath interior ["LinearRing", "posList"]) <|>
            (extractNodeByPath interior ["LinearRing", "coordinates"]) with
      | some t =>
        if jsTruthy t then
          some ((toPositions (parseNumbers (jsToString t)) (inferDimension value)).map
            fun p => maybeSwap p strategy srsName)
        else none
      | none => none
    let rings := ringsExterior ++ ringsInterior
    if rings.isEmpty then none else some (.polygon rings)

/-- `parseMultiPoint` of `src/parsers/featureCollection.ts`. -/
def parseMultiPoint (value : JsonVal) (strategy : AxisOrderStrategyL)
    (srsName : Option String) : Option GeometryL :=
  let points := (collectNodesByLocalName value "Point").filterMap fun node =>
    match parsePoint node strategy srsName with
    | some (.point c) => some c
    | _ => none
  if points.isEmpty then none else some (.multiPoint points)

/-- `parseMultiLineString` of `src/parsers/featureCollection.ts`. -/
def parseMultiLineString (value : JsonVal) (strategy : AxisOrderStrategyL)
    (srsName : Option String) : Option GeometryL :=
  let lines :=
    ((collectNodesByLocalName value "LineString") ++
      (collectNodesByLocalName value "Curve")).filterMap fun node =>
      match parseLineString node strategy srsName with
      | some (.lineString cs) => some cs
      | _ => none
  if lines.isEmpty then none else some (.multiLineString lines)

/-- `parseMultiPolygon` of `src/parsers/featureCollection.ts`. -/
def parseMultiPolygon (value : JsonVal) (strategy : AxisOrderStrategyL)
    (srsName : Option String) : Option GeometryL :=
  let polygons :=
    ((collectNodesByLocalName value "Polygon") ++
      (collectNodesByLocalName value "Surface")).filterMap fun node =>
      match parsePolygon node strategy srsName with
      | some (.polygon cs) => some cs
      | _ => none
  if polygons.isEmpty then none else some (.multiPolygon polygons)

/-- `parseGeometryNode` of `src/parsers/featureCollection.ts`: prefer a
locally declared string `srsName` over the inherited one, then
dispatch on the element's local name. -/
def parseGeometryNode (nodeName : String) (value : JsonVal)
    (strategy : AxisOrderStrategyL) (srsName : Option String) : Option GeometryL :=
  let nodeSrsName :=
    match jsIndex value "@_srsName" with
    | some (.str s) => some s
    | _ => srsName
  match nodeName with
  | "Point" => parsePoint value strategy nodeSrsName
  | "LineString" => parseLineString value strategy nodeSrsName
  | "Curve" => parseLineString value strategy nodeSrsName
  | "Polygon" => parsePolygon value strategy nodeSrsName
  | "Surface" => parsePolygon value strategy nodeSrsName
  | "MultiPoint" => parseMultiPoint value strategy nodeSrsName
  | "MultiLineString" => parseMultiLineString value strategy nodeSrsName
  | "MultiCurve" => parseMultiLineString value strategy nodeSrsName
  | "MultiPolygon" => parseMultiPolygon value strategy nodeSrsName
  | "MultiSurface" => parseMultiPolygon value strategy nodeSrsName
  | _ => none

/-! `parseGeometryDeep` of `src/parsers/featureCollection.ts`:
depth-first search for the first recognizable geometry element,
propagating a declared `srsName` downwards.  String-valued `srsName`
attributes are within the model; other attribute value shapes fall
back to the inherited name. -/
mutual
def parseGeometryDeep (value : JsonVal) (strategy : AxisOrderStrategyL)
    (inheritedSrsName : Option String) : Option GeometryL :=
  match value with
  | .obj fields =>
    let srsName :=
      match fields.get "@_srsName" with
      | some (.str s) => some s
      | _ => inheritedSrsName
    (match parseGeomEntriesFields fields strategy srsName with
     | some g => some g
     | none => parseGeomChildrenFields fields strategy srsName)
  | .arr items =>
    (match parseGeomEntriesArr items 0 strategy inheritedSrsName with
     | some g => some g
     | none => parseGeomChildrenArr items strategy inheritedSrsName)
  | _ => none
def parseGeomEntriesFields (fields : JsonObj) (strategy : AxisOrderStrategyL)
    (srsName : Option String) : Option GeometryL :=
  match fields with
  | .nil => none
  | .cons k v rest =>
    if leadMatch "@_".data k.data then parseGeomEntriesFields rest strategy srsName
    else
      match parseGeometryNode (localName k) v strategy srsName with
      | some g => some g
      | none => parseGeomEntriesFields rest strategy srsName
def parseGeomEntriesArr (items : JsonArr) (i : Nat) (strategy : AxisOrderStrategyL)
    (srsName : Option String) : Option GeometryL :=
  match items with
  | .nil => none
  | .cons v rest =>
    match parseGeometryNode (localName (toString i)) v strategy srsName with
    | some g => some g
    | none => parseGeomEntriesArr rest (i + 1) strategy srsName
def parseGeomChildrenFields (fields : JsonObj) (strategy : AxisOrderStrategyL)
    (srsName : Option String) : Option GeometryL :=
  match fields with
  | .nil => none
  | .cons _ v rest =>
    match parseGeometryDeep v strategy srsName with
    | some g => some g
    | none => parseGeomChildrenFields rest strategy srsName
def parseGeomChildrenArr (items : JsonArr) (strategy : AxisOrderStrategyL)
    (srsName : Option String) : Option GeometryL :=
  match items with
  | .nil => none
  | .cons v rest =>
    match parseGeometryDeep v strategy srsName with
    | some g => some g
    | none => parseGeomChildrenArr rest strategy srsName
end

/-! ## Feature-collection parsing (`src/parsers/featureCollection.ts`) -/

/-- `Object.entries(v)` for the value shapes the member parser meets
(entries of a string enumerate its characters by index). -/
def jsEntries : JsonVal → List (String × JsonVal)
  | .obj fields => fields.toList
  | .arr items => items.toList.enum.map fun p => (toString p.1, p.2)
  | .str s => s.data.enum.map fun p => (toString p.1, JsonVal.str (String.mk [p.2]))
  | _ => []

/-- `out[k] = v` on a JavaScript object of tree values. -/
def objUpdV (m : List (String × JsonVal)) (k : String) (v : JsonVal) :
    List (String × JsonVal) :=
  if m.any (fun p => p.1 = k) then
    m.map fun p => if p.1 = k then (k, v) else p
  else m ++ [(k, v)]

def objOfList : List (String × JsonVal) → JsonObj
  | [] => .nil
  | (k, v) :: rest => .cons k v (objOfList rest)

/-! `normalizeValue` of `src/parsers/featureCollection.ts`: scalars
pass through, arrays map, and an object collapses to `null` when it
has no non-attribute entry, unwraps when it has exactly one, and
otherwise flattens to local-named keys (later duplicates overwriting
earlier ones, as JavaScript assignment does). -/
mutual
def normalizeValue : JsonVal → JsonVal
  | .null => .null
  | .str s => .str s
  | .num n => .num n
  | .bool b => .bool b
  | .arr items => .arr (normalizeArr items)
  | .obj fields =>
    match normFields fields with
    | [] => .null
    | [(_, v)] => v
    | nf => .obj (objOfList (nf.foldl (fun acc p => objUpdV acc p.1 p.2) []))
def normalizeArr : JsonArr → JsonArr
  | .nil => .nil
  | .cons v rest => .cons (normalizeValue v) (normalizeArr rest)
def normFields : JsonObj → List (String × JsonVal)
  | .nil => []
  | .cons k v rest =>
    if leadMatch "@_".data k.data then normFields rest
    else (localName k, normalizeValue v) :: normFields rest
end

/-- `unwrapFeatureContainer` of `src/parsers/featureCollection.ts`. -/
def unwrapFeatureContainer (member : JsonVal) : Option JsonVal :=
  if ¬isObjLike member then none
  else
    let candidateEntries :=
      (jsEntries member).filter fun p => ¬leadMatch "@_".data p.1.data
    if candidateEntries.length = 1 then candidateEntries.head?.map (·.2)
    else if candidateEntries.length > 1 then
      match candidateEntries.find? (fun p =>
        !(localName p.1 == "Tuple" || localName p.1 == "SimpleFeatureCollection")) with
      | some p => some p.2
      | none => none
    else none

/-- The GeoJSON `Feature` objects the parser builds: identifier
attribute, first recognized geometry, flattened properties. -/
structure FeatureL where
  id : Option JsonVal
  geometry : Option GeometryL
  properties : List (String × JsonVal)
  deriving DecidableEq

/-- The entries loop of `parseMemberToFeature`: the first recognized
geometry child wins, everything else (attributes aside) becomes a
flattened property. -/
def memberPropsLoop (entries : List (String × JsonVal))
    (strategy : AxisOrderStrategyL) (geom : Option GeometryL)
    (props : List (String × JsonVal)) : Option GeometryL × List (String × JsonVal) :=
  match entries with
  | [] => (geom, props)
  | (k, v) :: rest =>
    if leadMatch "@_".data k.data then memberPropsLoop rest strategy geom props
    else
      match parseGeometryDeep v strategy none, geom with
      | some g, none => memberPropsLoop rest strategy (some g) props
      | _, _ =>
        memberPropsLoop rest strategy geom
          (objUpdV props (localName k) (normalizeValue v))

/-- `parseMemberToFeature` of `src/parsers/featureCollection.ts`. -/
def parseMemberToFeature (member : JsonVal) (strategy : AxisOrderStrategyL) :
    Option FeatureL :=
  match unwrapFeatureContainer member with
  | none => none
  | some featureContainer =>
    if ¬jsTruthy featureContainer then none
    else
      let id :=
        (jsIndexCo featureContainer "@_gml:id") <|>
          (jsIndexCo featureContainer "@_fid") <|> (jsIndexCo featureContainer "@_id")
      let gp := memberPropsLoop (jsEntries featureContainer) strategy none []
      some { id := id, geometry := gp.1, properties := gp.2 }

/-- `flattenFeatureMembersContainers` of
`src/parsers/featureCollection.ts`. -/
def flattenFeatureMembersContainers (containers : List JsonVal) : List JsonVal :=
  ((containers.map fun container =>
    ((jsEntries container).map fun p =>
      if leadMatch "@_".data p.1.data then []
      else (asArrayJ p.2).filterMap fun item =>
        if isObjLike item then some (JsonVal.obj (.cons p.1 item .nil)) else none
    ).flatten
  ).flatten)

/-- The parsed feature collection the parser builds (the optional lock
identifier comes from a `lockId`/`lockid` attribute). -/
structure BuiltFcL where
  features : List FeatureL
  lockId : Option String
  deriving DecidableEq

/-- `emptyFeatureCollection` of `src/parsers/featureCollection.ts`. -/
def emptyFeatureCollection : BuiltFcL := ⟨[], none⟩

/-- A `parseFeatureCollection` payload: either a non-string JavaScript
value, or a string given together with the tree the external XML
primitive parses it to. -/
inductive FcPayloadL where
  | nonString (v : JsonVal)
  | xmlString (parsed : JsonVal)
  deriving DecidableEq

/-- The two return paths of `parseFeatureCollection`: the GeoJSON
passthrough returns the payload object itself, every other path
returns a freshly built collection. -/
inductive FcReturnL where
  | passthrough (v : JsonVal)
  | built (fc : BuiltFcL)
  deriving DecidableEq

/-- `isGeoJsonFeatureCollection` of
`src/parsers/featureCollection.ts`. -/
def isGeoJsonFeatureCollection : JsonVal → Bool
  | .obj fields =>
    (fields.get "type" == some (JsonVal.str "FeatureCollection")) &&
      (match fields.get "features" with
       | some (.arr _) => true
       | _ => false)
  | _ => false

/-- `parseFeatureCollection` of `src/parsers/featureCollection.ts`.
A string payload can never satisfy the GeoJSON object test, so the
`xmlString` branch goes straight to the tree lookup the source
performs after its `typeof payload !== "string"` guard. -/
def parseFeatureCollection (payload : FcPayloadL) (strategy : AxisOrderStrategyL) :
    FcReturnL :=
  match payload with
  | .nonString v =>
    if isGeoJsonFeatureCollection v then .passthrough v
    else .built emptyFeatureCollection
  | .xmlString parsed =>
    match (getNodeByLocalName parsed "FeatureCollection") <|>
          (getNodeByLocalName parsed "SimpleFeatureCollection") with
    | none => .built emptyFeatureCollection
    | some fcNode =>
      let members :=
        collectNodesByLocalName fcNode "member"
          ++ collectNodesByLocalName fcNode "featureMember"
          ++ flattenFeatureMembersContainers
              (collectNodesByLocalName fcNode "featureMembers")
      let features := members.filterMap fun m => parseMemberToFeature m strategy
      let lockIdO :=
        match valueTextO (jsIndex fcNode "@_lockId") with
        | some t => some t
        | none => valueTextO (jsIndex fcNode "@_lockid")
      let lockId :=
        match lockIdO with
        | some s => if s = "" then none else some s
        | none => none
      .built { features := features, lockId := lockId }

/-! ## Transaction-result parsing (`src/parsers/transaction.ts`) -/

/-- One per-feature action result: optional `handle` attribute and the
extracted resource identifiers (attribute values, kept as tree
values as the source's casts do). -/
structure ActionResultL where
  handle : Option JsonVal
  resourceIds : List JsonVal
  deriving DecidableEq

/-- `TransactionResult` of `src/types.ts` restricted to the fields the
parser writes; `raw` echoes the payload. -/
structure TransactionResultL where
  totalInserted : Option Int
  totalUpdated : Option Int
  totalReplaced : Option Int
  totalDeleted : Option Int
  insertResults : List ActionResultL
  updateResults : List ActionResultL
  replaceResults : List ActionResultL
  raw : JsonVal
  deriving DecidableEq

/-- A `parseTransactionResult` payload: a non-string JavaScript value,
or a string given with the tree the external XML primitive yields. -/
inductive TxPayloadL where
  | nonString (v : JsonVal)
  | xmlString (parsed : JsonVal)
  deriving DecidableEq

/-- `parseActionResults` of `src/parsers/transaction.ts`: for each
`Feature` node, identifiers come from the nodes whose local name is
`ResourceId`, taking the `rid` attribute and falling back to `fid`,
keeping truthy values only. -/
def parseActionResults (txNode : JsonVal) (localResultName : String) :
    List ActionResultL :=
  match getNodeByLocalName txNode localResultName with
  | none => []
  | some node =>
    (collectNodesByLocalName node "Feature").map fun featureNode =>
      { handle := jsIndex featureNode "@_handle"
        resourceIds :=
          (collectNodesByLocalName featureNode "ResourceId").filterMap fun ridNode =>
            match (jsIndexCo ridNode "@_rid") <|> (jsIndexCo ridNode "@_fid") with
            | some v => if jsTruthy v then some v else none
            | none => none }

/-- `firstByLocalName` of `src/parsers/transaction.ts`: the candidate
under the `wfs:`-prefixed key, falling back to the bare key. -/
def firstByLocalName (node : Option JsonVal) (name : String) : Option String :=
  match node with
  | none => none
  | some n =>
    let c1 := (asArrayO (jsIndex n ("wfs:" ++ name))).head?
    let c2 := (asArrayO (jsIndex n name)).head?
    let candidate :=
      match c1 with
      | some .null => c2
      | none => c2
      | some v => some v
    match candidate with
    | none => none
    | some v => valueText v

/-- `toNumber` of `src/parsers/transaction.ts`: a falsy (absent or
empty) text stays absent, otherwise the finite numeric value. -/
def toNumber (value : Option String) : Option Int :=
  match value with
  | none => none
  | some s => if s = "" then none else jsNumO s

/-- `parseTransactionResult` of `src/parsers/transaction.ts`. -/
def parseTransactionResult (payload : TxPayloadL) : TransactionResultL :=
  match payload with
  | .nonString v =>
    { totalInserted := none, totalUpdated := none, totalReplaced := none,
      totalDeleted := none, insertResults := [], updateResults := [],
      replaceResults := [], raw := v }
  | .xmlString parsed =>
    match getNodeByLocalName parsed "TransactionResponse" with
    | none =>
      { totalInserted := none, totalUpdated := none, totalReplaced := none,
        totalDeleted := none, insertResults := [], updateResults := [],
        replaceResults := [], raw := parsed }
    | some txNode =>
      let summaryNode := getNodeByLocalName txNode "TransactionSummary"
      { totalInserted := toNumber (firstByLocalName summaryNode "totalInserted")
        totalUpdated := toNumber (firstByLocalName summaryNode "totalUpdated")
        totalReplaced := toNumber (firstByLocalName summaryNode "totalReplaced")
        totalDeleted := toNumber (firstByLocalName summaryNode "totalDeleted")
        insertResults := parseActionResults txNode "InsertResults"
        updateResults := parseActionResults txNode "UpdateResults"
        replaceResults := parseActionResults txNode "ReplaceResults"
        raw := parsed }

/-! ## Raw XML splice overrides (`applyXmlOverrides` of `src/utils/xml.ts`) -/

/-- One splice step of `applyXmlOverrides`: find the first occurrence
of the target's opening tag text, detect self-closing tags, locate the
close tag otherwise, and splice before/after/over the spanned
segment.  An unfound target or close tag leaves the document
unchanged. -/
def applyXmlOverride (acc : String) (ov : XmlOverrideL) : String :=
  let startTag := "<" ++ ov.target
  match jsIndexOfFrom acc startTag 0 with
  | none => acc
  | some openIndex =>
    match jsIndexOfFrom acc ">" openIndex with
    | none => acc
    | some openEnd =>
      let openingSegment := jsSlice acc openIndex (openEnd + 1)
      let selfClosing := strEndsWith (strTrimEnd openingSegment) "/>"
      let closeTag := "</" ++ ov.target ++ ">"
      let closeIndexO :=
        if selfClosing then none else jsIndexOfFrom acc closeTag (openEnd + 1)
      if ¬selfClosing ∧ closeIndexO = none then acc
      else
        let segmentEnd :=
          match closeIndexO with
          | some ci => ci + closeTag.length
          | none => openEnd + 1
        match ov.position.getD .after with
        | .before => jsSlice acc 0 openIndex ++ ov.xml ++ jsSliceFrom acc openIndex
        | .replace => jsSlice acc 0 openIndex ++ ov.xml ++ jsSliceFrom acc segmentEnd
        | .after => jsSlice acc 0 segmentEnd ++ ov.xml ++ jsSliceFrom acc segmentEnd

/-- `applyXmlOverrides` of `src/utils/xml.ts`. -/
def applyXmlOverrides (xml : String) (overrides : List XmlOverrideL) : String :=
  if overrides.isEmpty then xml
  else overrides.foldl applyXmlOverride xml

/-! ## Namespace resolution (`src/serializers/wfs.ts`) -/

/-- `RESERVED_PREFIXES` of `src/serializers/wfs.ts`. -/
def reservedNsKeys : List String :=
  ["wfs", "gml", "fes", "ogc", "ows", "xlink", "xml", "xmlns"]

/-- `ROOT_PREFIX_ORDER` of `src/serializers/wfs.ts`. -/
def rootNsOrder : List String := ["wfs", "gml", "fes", "ogc", "ows", "xlink"]

/-- The serializer context: target version plus the client's
configured namespace table (`ctx.namespaces ?? {}`). -/
structure SerializerContextL where
  version : WfsVersionL
  namespaces : List (String × String)
  deriving DecidableEq

/-- `defaultNamespacesForVersion` of `src/serializers/wfs.ts`. -/
def defaultNamespacesForVersion (version : WfsVersionL) : List (String × String) :=
  if version = .v110 then
    [("wfs", "http://www.opengis.net/wfs"),
     ("gml", "http://www.opengis.net/gml"),
     ("fes", "http://www.opengis.net/ogc"),
     ("ogc", "http://www.opengis.net/ogc"),
     ("ows", "http://www.opengis.net/ows"),
     ("xlink", "http://www.w3.org/1999/xlink")]
  else
    [("wfs", "http://www.opengis.net/wfs/2.0"),
     ("gml", "http://www.opengis.net/gml/3.2"),
     ("fes", "http://www.opengis.net/fes/2.0"),
     ("ogc", "http://www.opengis.net/fes/2.0"),
     ("ows", "http://www.opengis.net/ows/1.1"),
     ("xlink", "http://www.w3.org/1999/xlink")]

/-- The text of the missing-namespace error thrown by
`resolveRootNamespaces`; it names the offending QName head. -/
def missingNsMsg (p : String) : String :=
  "Missing namespace mapping for prefix \"" ++ p
    ++ "\". Provide it via WfsClientConfig.namespaces."

/-- The namespace table `resolveRootNamespaces` assembles before its
check: the configured table (entries with empty URIs skipped)
overlaid on the version defaults. -/
def mergedNamespaces (ctx : SerializerContextL) : List (String × String) :=
  ctx.namespaces.foldl
    (fun acc p => if p.2 = "" then acc else objUpd acc p.1 p.2)
    (defaultNamespacesForVersion ctx.version)

/-- The per-head check of `resolveRootNamespaces`: a head offends when
it is not reserved and the assembled table holds no (non-empty) URI
for it. -/
def nsOffending (ctx : SerializerContextL) (p : String) : Bool :=
  !(reservedNsKeys.contains p) &&
    (match kvpGet (mergedNamespaces ctx) p with
     | none => true
     | some u => u = "")

/-- `resolveRootNamespaces` of `src/serializers/wfs.ts`: overlay the
configured table (skipping empty URIs) on the version defaults, then
fail on the first referenced head that is neither reserved nor mapped
to a non-empty URI. -/
def resolveRootNamespaces (ctx : SerializerContextL) (requiredHeads : List String) :
    Except String (List (String × String)) :=
  match requiredHeads.find? (nsOffending ctx) with
  | some p => .error (missingNsMsg p)
  | none => .ok (mergedNamespaces ctx)

/-- Stable insertion for the alphabetical tail of `rootXmlns`
(`localeCompare` is embedded as codepoint order, which coincides with
it on the ASCII names this development exercises). -/
def insertLeKey (p : String × String) : List (String × String) → List (String × String)
  | [] => [p]
  | q :: rest => if p.1 ≤ q.1 then p :: q :: rest else q :: insertLeKey p rest

def sortByKey : List (String × String) → List (String × String)
  | [] => []
  | x :: xs => insertLeKey x (sortByKey xs)

/-- `rootXmlns` of `src/serializers/wfs.ts`: the fixed protocol heads
first, then the remaining mapped heads alphabetically. -/
def rootXmlns (namespaces : List (String × String)) : String :=
  let orderedEntries := rootNsOrder.filterMap fun p =>
    (kvpGet namespaces p).bind fun uri =>
      if uri = "" then none else some (p, uri)
  let extraEntries := sortByKey
    ((namespaces.filter fun q => ¬rootNsOrder.contains q.1).filter fun q => q.2 ≠ "")
  String.join ((orderedEntries ++ extraEntries).map fun q =>
    " xmlns:" ++ q.1 ++ "=\"" ++ escapeXml q.2 ++ "\"")

/-- `buildListStoredQueriesXml` of `src/serializers/wfs.ts` (its
options contribute only the raw override list). -/
def buildListStoredQueriesXml (overrides : List XmlOverrideL)
    (ctx : SerializerContextL) : Except String String :=
  match resolveRootNamespaces ctx [] with
  | .error e => .error e
  | .ok ns =>
    .ok (applyXmlOverrides
      ("<wfs:ListStoredQueries" ++ rootXmlns ns ++ " service=\"WFS\" version=\""
        ++ versionStr ctx.version ++ "\"/>") overrides)

/-! ## QName head collection (`src/serializers/wfs.ts`) -/

def isNameStartChar (c : Char) : Bool := c.isAlpha || c = '_'

def isNameChar (c : Char) : Bool := c.isAlphanum || c = '_' || c = '.' || c = '-'

def isWordChar (c : Char) : Bool := c.isAlphanum || c = '_'

/-- The word-boundary test of `QNAME_PREFIX_PATTERN`: a name-start
character matches at `\\b` exactly when the preceding character (if
any) is not a word character. -/
def atBoundary : Option Char → Bool
  | none => true
  | some p => ¬isWordChar p

/-! The scan of `QNAME_PREFIX_PATTERN.matchAll` as a character-level
state machine: outside a candidate (`scanIdle`, tracking the previous
character for the boundary test), inside the head name run
(`scanHead`), just after the colon (`scanColon`), and inside the local
name run (`scanLocal`).  A failed candidate can be abandoned wholesale
because any retry position inside its name run meets the same
non-colon terminator, and the terminating character itself can never
start a new candidate (name-start characters are name characters). -/
mutual
def scanIdle : List Char → Option Char → List String
  | [], _ => []
  | c :: rest, prev =>
    if isNameStartChar c && atBoundary prev then scanHead rest [c]
    else scanIdle rest (some c)
def scanHead : List Char → List Char → List String
  | [], _ => []
  | c :: rest, acc =>
    if isNameChar c then scanHead rest (acc ++ [c])
    else if c = ':' then scanColon rest acc
    else scanIdle rest (some c)
def scanColon : List Char → List Char → List String
  | [], _ => []
  | c :: rest, acc =>
    if isNameStartChar c then String.mk acc :: scanLocal rest
    else scanIdle rest (some c)
def scanLocal : List Char → List String
  | [] => []
  | c :: rest =>
    if isNameChar c then scanLocal rest
    else scanIdle rest (some c)
end

/-- `collectQNamePrefixes` of `src/serializers/wfs.ts` on one value:
every QName head occurring in the string, in match order. -/
def qnameHeadsIn (value : String) : List String := scanIdle value.data none

/-- `token.includes("=") ? token.split("=", 1)[0] : token`. -/
def eqSplitLead (token : String) : String :=
  match firstSubIdx ['='] token.data with
  | some i => String.mk (token.data.take i)
  | none => token

/-- `collectTypeNamePrefixes` of `src/serializers/wfs.ts`. -/
def collectTypeNameHeads (typeNames : List String) : List String :=
  ((typeNames.map fun typeName =>
    (((splitWsComma typeName).filter (· ≠ "")).map fun token =>
      qnameHeadsIn (eqSplitLead token)).flatten).flatten)

/-! `collectFilterPrefixes` of `src/serializers/wfs.ts`: logical
filters recurse, the property-bearing operators contribute their
property reference, and `id` and unknown operators contribute
nothing. -/
mutual
def collectFilterHeads : WfsFilterL → List String
  | .logical _ filters => collectFilterListHeads filters
  | .comparison _ property _ _ => qnameHeadsIn property
  | .like property _ _ _ _ _ => qnameHeadsIn property
  | .between property _ _ => qnameHeadsIn property
  | .isNull property => qnameHeadsIn property
  | .spatial _ property _ _ => qnameHeadsIn property
  | .idFilter _ => []
  | .unknownOp _ => []
def collectFilterListHeads : WfsFilterList → List String
  | .nil => []
  | .cons f rest => collectFilterHeads f ++ collectFilterListHeads rest
end

/-- The referenced QName heads of a GetFeature request, in the
collection order of `buildGetFeatureXml`: type names, then projected
property names, then filter property references. -/
def getFeatureRequiredHeads (options : GetFeatureOptionsL) : List String :=
  collectTypeNameHeads options.typeNames
    ++ ((options.propertyNames.getD []).map qnameHeadsIn).flatten
    ++ (match options.filter with
        | some f => collectFilterHeads f
        | none => [])

/-! ## The GetFeature XML serializer (`buildGetFeatureXml`) -/

def joinTypeNamesForXml (typeNames : List String) : String :=
  String.intercalate " " typeNames

/-- `buildFilterSegment` of `src/serializers/wfs.ts`. -/
def buildFilterSegment (filter : Option WfsFilterL)
    (bbox : Option (Int × Int × Int × Int)) (version : WfsVersionL) : String :=
  match filter with
  | some f =>
    compileFilterXml f
      { version := version, srsName := none, includeNamespaceDeclarations := false }
  | none =>
    match bbox with
    | some b =>
      let filterHead := if version = .v110 then "ogc" else "fes"
      let propNameTag := if version = .v110 then "PropertyName" else "ValueReference"
      "<" ++ filterHead ++ ":Filter><" ++ filterHead ++ ":BBOX><" ++ filterHead ++ ":"
        ++ propNameTag ++ ">geometry</" ++ filterHead ++ ":" ++ propNameTag
        ++ "><gml:Envelope><gml:lowerCorner>" ++ toString b.1 ++ " " ++ toString b.2.1
        ++ "</gml:lowerCorner><gml:upperCorner>" ++ toString b.2.2.1 ++ " "
        ++ toString b.2.2.2 ++ "</gml:upperCorner></gml:Envelope></" ++ filterHead
        ++ ":BBOX></" ++ filterHead ++ ":Filter>"
    | none => ""

/-- `buildGeoServerHints` of `src/serializers/wfs.ts`. -/
def buildGeoServerHints (hints : Option (List String)) : String :=
  match hints with
  | none => ""
  | some hs => if hs.isEmpty then "" else String.join hs

/-- `buildGetFeatureXml` of `src/serializers/wfs.ts`: namespace
resolution is the only fallible stage, and it runs before any of the
document text is assembled. -/
def buildGetFeatureXml (options : GetFeatureOptionsL) (ctx : SerializerContextL) :
    Except String String :=
  match resolveRootNamespaces ctx (getFeatureRequiredHeads options) with
  | .error e => .error e
  | .ok ns =>
    let queryAttributeName := if ctx.version = .v110 then "typeName" else "typeNames"
    let projectionXml := String.join ((options.propertyNames.getD []).map
      fun propertyName =>
        "<wfs:PropertyName>" ++ escapeXml propertyName ++ "</wfs:PropertyName>")
    let filterXml := buildFilterSegment options.filter options.bbox ctx.version
    let query := "<wfs:Query " ++ queryAttributeName ++ "=\""
      ++ escapeXml (joinTypeNamesForXml options.typeNames) ++ "\""
      ++ xmlAttr "srsName" options.srsName ++ ">" ++ projectionXml ++ filterXml
      ++ "</wfs:Query>"
    let countAttr :=
      if ctx.version = .v110 then xmlAttr "maxFeatures" (options.count.map toString)
      else xmlAttr "count" (options.count.map toString)
    let xml := "<wfs:GetFeature" ++ rootXmlns ns ++ " service=\"WFS\" version=\""
      ++ versionStr ctx.version ++ "\"" ++ xmlAttr "outputFormat" options.outputFormat
      ++ xmlAttr "startIndex" (options.startIndex.map toString) ++ countAttr
      ++ xmlAttr "resultType" options.resultType ++ xmlAttr "resolve" options.resolve
      ++ xmlAttr "resolveDepth" options.resolveDepth
      ++ xmlAttr "resolveTimeout" (options.resolveTimeout.map toString) ++ ">"
      ++ query ++ buildGeoServerHints (options.geoserver.bind (·.xmlHints))
      ++ "</wfs:GetFeature>"
    .ok (applyXmlOverrides xml ((options.raw.bind (·.xmlOverrides)).getD []))

inductive RequestStyleL where
  | get
  | post
  deriving DecidableEq

inductive PreparedGetFeatureL where
  | getReq (kvp : List (String × String))
  | postReq (kvp : List (String × String)) (xml : String)
  deriving DecidableEq

/-- The request-construction phase of `WfsClient.getFeature`
(`src/client/WfsClient.ts`): the KVP map is built for either style,
the XML body only for POST style, and the XML serializer's namespace
resolution is the only stage that can fail — any such failure happens
before the transport is invoked. -/
def prepareGetFeature (style : RequestStyleL) (options : GetFeatureOptionsL)
    (ctx : SerializerContextL) : Except String PreparedGetFeatureL :=
  match style with
  | .get => .ok (.getReq (buildGetFeatureKvp options ctx.version))
  | .post =>
    match buildGetFeatureXml options ctx with
    | .error e => .error e
    | .ok xml => .ok (.postReq (buildGetFeatureKvp options ctx.version) xml)

/-! ## The dispatcher's GetFeature retry (`src/client/WfsClient.ts`) -/

/-- `OwsException` of `src/errors.ts`. -/
structure OwsExceptionL where
  exceptionCode : Option String
  locator : Option String
  text : String
  deriving DecidableEq

/-- A failed operation as `getFeature`'s catch sees it: an
`OwsExceptionError` carrying its parsed exception list, or any other
(transport) failure. -/
inductive WfsCallErrorL where
  | ows (exceptions : List OwsExceptionL)
  | transport
  deriving DecidableEq

/-- `GEOJSON_OUTPUT_FORMATS` of `src/core/constants.ts`. -/
def GEOJSON_OUTPUT_FORMATS : List String :=
  ["application/json", "application/geo+json", "json"]

/-- `WfsClient.isOutputFormatException`: only an `OwsExceptionError`
qualifies, and only when some carried exception has `"outputformat"`
in its lower-cased text or `"invalidparametervalue"` or
`"operationprocessingfailed"` in its lower-cased code. -/
def isOutputFormatException : WfsCallErrorL → Bool
  | .ows exceptions =>
    exceptions.any fun e =>
      let lowerText := lowerStr e.text
      let lowerCode := lowerStr (e.exceptionCode.getD "")
      strContains lowerText "outputformat" ||
        strContains lowerCode "invalidparametervalue" ||
        strContains lowerCode "operationprocessingfailed"
  | .transport => false

/-- The control flow of `WfsClient.getFeature` around the transport:
`send` stands for one send-and-check exchange of the otherwise fixed
query, keyed by the output format it is issued with, and `parse` for
`parseFeatureResponse`.  The first attempt defaults the caller's
output format to the first GeoJSON format; a failure satisfying
`isOutputFormatException` is retried exactly once with the output
format omitted, and any other failure — including a failure of the
retry itself — propagates unchanged. -/
def getFeatureDispatch {ρ α : Type} (send : Option String → Except WfsCallErrorL ρ)
    (parse : ρ → α) (requestedFormat : Option String) : Except WfsCallErrorL α :=
  let firstFormat := some (requestedFormat.getD (GEOJSON_OUTPUT_FORMATS.headD ""))
  match send firstFormat with
  | .ok r => .ok (parse r)
  | .error e =>
    if isOutputFormatException e then
      match send none with
      | .ok r => .ok (parse r)
      | .error e2 => .error e2
    else .error e

/-! ## Concrete inputs used by the claim witnesses and counterexamples -/

set_option maxRecDepth 16384

/-- GetFeature options referencing the unmapped QName head `foo`. -/
def c2Opts : GetFeatureOptionsL := { gfoBase with typeNames := ["foo:bar"] }

/-- A serializer context with no configured namespace table. -/
def c2Ctx : SerializerContextL := { version := .v202, namespaces := [] }

/-- GetFeature options whose raw KVP escape hatch injects a `count`
parameter. -/
def c4OptsCount : GetFeatureOptionsL :=
  { gfoBase with typeNames := ["t"], raw := some (RawRequestOptionsL.mk (some [("count", "5")]) none none) }

/-- GetFeature options whose raw KVP escape hatch injects a
`maxFeatures` parameter. -/
def c4OptsMax : GetFeatureOptionsL :=
  { gfoBase with typeNames := ["t"], raw := some (RawRequestOptionsL.mk (some [("maxFeatures", "9")]) none none) }

/-- GetFeature options with two type names and a numeric count, and
no raw or vendor escape hatches. -/
def c4WitOpts : GetFeatureOptionsL :=
  { gfoBase with typeNames := ["a", "b"], count := some 7 }

/-- A parsed `gml:Point` node carrying `<gml:pos>40 20</gml:pos>`. -/
def c5PointNode : JsonVal := .obj (.cons "gml:pos" (.str "40 20") .nil)

/-- A parsed transaction response whose summary reports
`totalInserted` as `0` and omits the other totals, and whose
`InsertResults/Feature` carries only an `ogc:FeatureId` child. -/
def c6TxTree : JsonVal :=
  .obj (.cons "wfs:TransactionResponse"
    (.obj (.cons "wfs:TransactionSummary"
      (.obj (.cons "wfs:totalInserted" (.num 0) .nil))
      (.cons "wfs:InsertResults"
        (.obj (.cons "wfs:Feature"
          (.obj (.cons "ogc:FeatureId" (.obj (.cons "@_fid" (.str "x") .nil)) .nil))
          .nil))
        .nil)))
    .nil)

/-- The `TransactionResponse` node inside `c6TxTree`. -/
def c6TxNode : JsonVal :=
  .obj (.cons "wfs:TransactionSummary"
    (.obj (.cons "wfs:totalInserted" (.num 0) .nil))
    (.cons "wfs:InsertResults"
      (.obj (.cons "wfs:Feature"
        (.obj (.cons "ogc:FeatureId" (.obj (.cons "@_fid" (.str "x") .nil)) .nil))
        .nil))
      .nil))

/-- The `TransactionSummary` node inside `c6TxTree`. -/
def c6Summary : JsonVal := .obj (.cons "wfs:totalInserted" (.num 0) .nil)

/-- The `Feature` node of `c6TxTree`: its only child is
`<ogc:FeatureId fid="x"/>`. -/
def c7FeatureNode : JsonVal :=
  .obj (.cons "ogc:FeatureId" (.obj (.cons "@_fid" (.str "x") .nil)) .nil)

/-- A parsed transaction response whose `InsertResults/Feature` mixes
`fes:ResourceId rid="a"`, an `ogc:FeatureId fid="b"`, and a
`wfs:ResourceId fid="c"`. -/
def c7MixedTree : JsonVal :=
  .obj (.cons "wfs:TransactionResponse"
    (.obj (.cons "wfs:InsertResults"
      (.obj (.cons "wfs:Feature"
        (.obj (.cons "fes:ResourceId" (.obj (.cons "@_rid" (.str "a") .nil))
          (.cons "ogc:FeatureId" (.obj (.cons "@_fid" (.str "b") .nil))
          (.cons "wfs:ResourceId" (.obj (.cons "@_fid" (.str "c") .nil)) .nil))))
        .nil))
      .nil))
    .nil)

/-- The document `buildListStoredQueriesXml` produces for a default
2.0.2 context: a single self-closing root element. -/
def lsqXml : String :=
  "<wfs:ListStoredQueries xmlns:wfs=\"http://www.opengis.net/wfs/2.0\" xmlns:gml=\"http://www.opengis.net/gml/3.2\" xmlns:fes=\"http://www.opengis.net/fes/2.0\" xmlns:ogc=\"http://www.opengis.net/fes/2.0\" xmlns:ows=\"http://www.opengis.net/ows/1.1\" xmlns:xlink=\"http://www.w3.org/1999/xlink\" service=\"WFS\" version=\"2.0.2\"/>"

/-- The raw override used by the C8 witness. -/
def c8Override : XmlOverrideL :=
  { target := "wfs:ListStoredQueries", position := some .replace, xml := "<my:Op/>" }

/-- A GeoJSON feature collection object (for the passthrough case). -/
def c10FcObj : JsonVal :=
  .obj (.cons "type" (.str "FeatureCollection") (.cons "features" (.arr .nil) .nil))

/-- A parsed tree containing no feature-collection element. -/
def c10NoFcTree : JsonVal := .obj (.cons "foo" (.obj .nil) .nil)

/-- The failing first exchange used by the C1 witness: the server
rejects the GeoJSON output format with an OWS exception and serves a
payload on the format-free retry. -/
def c1Send : Option String → Except WfsCallErrorL String := fun fmt =>
  match fmt with
  | some _ =>
    .error (.ows [{ exceptionCode := some "InvalidParameterValue",
                    locator := some "outputFormat",
                    text := "Unknown output format" }])
  | none => .ok "xml-payload"

/-- The error of `c1Send`'s first exchange. -/
def c1Err : WfsCallErrorL :=
  .ows [{ exceptionCode := some "InvalidParameterValue",
          locator := some "outputFormat",
          text := "Unknown output format" }]

/-- A stand-in response parser for the C1 witness. -/
def c1Parse : String → String := fun r => "parsed:" ++ r

/-- The `TransactionResponse` node inside `c7MixedTree`. -/
def c7MixedTxNode : JsonVal :=
  .obj (.cons "wfs:InsertResults"
    (.obj (.cons "wfs:Feature"
      (.obj (.cons "fes:ResourceId" (.obj (.cons "@_rid" (.str "a") .nil))
        (.cons "ogc:FeatureId" (.obj (.cons "@_fid" (.str "b") .nil))
        (.cons "wfs:ResourceId" (.obj (.cons "@_fid" (.str "c") .nil)) .nil))))
      .nil))
    .nil)

/-- A parsed transaction response whose `InsertResults/Feature`
carries only an `<ogc:FeatureId fid="x"/>` child (no ResourceId). -/
def c7FidTree : JsonVal :=
  .obj (.cons "wfs:TransactionResponse"
    (.obj (.cons "wfs:InsertResults"
      (.obj (.cons "wfs:Feature"
        (.obj (.cons "ogc:FeatureId" (.obj (.cons "@_fid" (.str "x") .nil)) .nil))
        .nil))
      .nil))
    .nil)

/-- A serializer context used by the C8 witness (version 2.0.2, no
configured namespaces). -/
def c8Ctx : SerializerContextL := { version := .v202, namespaces := [] }

/-! ## Helper lemmas -/

theorem strAppendAssoc (a b c : String) : a ++ b ++ c = a ++ (b ++ c) := by
  cases a with
  | mk da =>
    cases b with
    | mk db =>
      cases c with
      | mk dc => exact congrArg String.mk (List.append_assoc da db dc)

/-! ## Claim theorems -/

/-- C3: for every id filter, `compileFilterXml` at version 1.1.0
produces exactly one `<ogc:FeatureId fid="…"/>` element per identifier
in input order inside the `ogc:Filter` wrapper (and nothing else),
while at 2.0.2 and 2.0.0 it produces one `<fes:ResourceId rid="…"/>`
element per identifier in input order inside the `fes:Filter` wrapper;
in particular the filter `{op:"id", ids:["roads.1"]}` compiles to a
document containing `<ogc:FeatureId fid="roads.1"/>` at 1.1.0 and
`<fes:ResourceId rid="roads.1"/>` at 2.0.2, with no ResourceId text at
1.1.0 and no FeatureId text at 2.0.2. -/
theorem claim_C3 :
    (∀ ids : List String,
      compileFilterXml (.idFilter ids)
          { version := .v110, srsName := none, includeNamespaceDeclarations := false }
        = "<ogc:Filter>"
            ++ String.join (ids.map fun id =>
                "<ogc:FeatureId fid=\"" ++ escapeXml id ++ "\"/>")
            ++ "</ogc:Filter>")
    ∧ (∀ ids : List String,
      compileFilterXml (.idFilter ids)
          { version := .v202, srsName := none, includeNamespaceDeclarations := false }
        = "<fes:Filter>"
            ++ String.join (ids.map fun id =>
                "<fes:ResourceId rid=\"" ++ escapeXml id ++ "\"/>")
            ++ "</fes:Filter>")
    ∧ (∀ ids : List String,
      compileFilterXml (.idFilter ids)
          { version := .v200, srsName := none, includeNamespaceDeclarations := false }
        = "<fes:Filter>"
            ++ String.join (ids.map fun id =>
                "<fes:ResourceId rid=\"" ++ escapeXml id ++ "\"/>")
            ++ "</fes:Filter>")
    ∧ strContains (compileFilterXml (.idFilter ["roads.1"])
          { version := .v110, srsName := none, includeNamespaceDeclarations := false })
        "<ogc:FeatureId fid=\"roads.1\"/>" = true
    ∧ strContains (compileFilterXml (.idFilter ["roads.1"])
          { version := .v202, srsName := none, includeNamespaceDeclarations := false })
        "<fes:ResourceId rid=\"roads.1\"/>" = true
    ∧ strContains (compileFilterXml (.idFilter ["roads.1"])
          { version := .v110, srsName := none, includeNamespaceDeclarations := false })
        "ResourceId" = false
    ∧ strContains (compileFilterXml (.idFilter ["roads.1"])
          { version := .v202, srsName := none, includeNamespaceDeclarations := false })
        "FeatureId" = false := by
  refine ⟨?_, ?_, ?_, by decide, by decide, by decide, by decide⟩ <;>
    · intro ids
      simp only [compileFilterXml, compileFilterBody, compileIdFilter, strAppendAssoc]
      rfl

/-- C9: a value whose operator tag is none of the known filter
operators compiles, without failing, to the bare filter wrapper with
an empty body — `<ogc:Filter></ogc:Filter>` at 1.1.0 and
`<fes:Filter></fes:Filter>` at 2.0.x — and the operator-to-tag table
is exact, e.g. `gte` compiles to `PropertyIsGreaterThanOrEqualTo`. -/
theorem claim_C9 :
    (∀ op : String,
      compileFilterXml (.unknownOp op)
          { version := .v110, srsName := none, includeNamespaceDeclarations := false }
        = "<ogc:Filter></ogc:Filter>")
    ∧ (∀ op : String,
      compileFilterXml (.unknownOp op)
          { version := .v202, srsName := none, includeNamespaceDeclarations := false }
        = "<fes:Filter></fes:Filter>")
    ∧ (∀ op : String,
      compileFilterXml (.unknownOp op)
          { version := .v200, srsName := none, includeNamespaceDeclarations := false }
        = "<fes:Filter></fes:Filter>")
    ∧ COMPARISON_TAG_MAP .eq = "PropertyIsEqualTo"
    ∧ COMPARISON_TAG_MAP .neq = "PropertyIsNotEqualTo"
    ∧ COMPARISON_TAG_MAP .lt = "PropertyIsLessThan"
    ∧ COMPARISON_TAG_MAP .lte = "PropertyIsLessThanOrEqualTo"
    ∧ COMPARISON_TAG_MAP .gt = "PropertyIsGreaterThan"
    ∧ COMPARISON_TAG_MAP .gte = "PropertyIsGreaterThanOrEqualTo"
    ∧ strContains (compileFilterXml (.comparison .gte "lanes" (.num 2) none)
          { version := .v202, srsName := none, includeNamespaceDeclarations := false })
        "<fes:PropertyIsGreaterThanOrEqualTo>" = true := by
  refine ⟨fun op => rfl, fun op => rfl, fun op => rfl, rfl, rfl, rfl, rfl, rfl, rfl, ?_⟩
  decide

/-- C1: the GetFeature dispatcher issues the first attempt with the
caller's output format defaulted to `"application/json"` (the first
GeoJSON-family format); when that attempt fails with an error
satisfying the output-format predicate the identical query is resent
exactly once with the output format omitted and the dispatcher returns
the parse of whatever that retry yields (a retry failure propagating
unchanged); any failure not satisfying the predicate propagates with
no further attempt.  The predicate holds exactly for an OWS exception
error one of whose exceptions has `"outputformat"` in its lower-cased
text or `"invalidparametervalue"`/`"operationprocessingfailed"` in its
lower-cased code, and never for a non-OWS failure. -/
theorem claim_C1 {ρ α : Type} (send : Option String → Except WfsCallErrorL ρ)
    (parse : ρ → α) (requested : Option String) :
    (GEOJSON_OUTPUT_FORMATS.headD "" = "application/json")
    ∧ (∀ r, send (some (requested.getD "application/json")) = .ok r →
        getFeatureDispatch send parse requested = .ok (parse r))
    ∧ (∀ e, send (some (requested.getD "application/json")) = .error e →
        (isOutputFormatException e = true →
          getFeatureDispatch send parse requested = (send none).map parse)
        ∧ (isOutputFormatException e = false →
          getFeatureDispatch send parse requested = .error e))
    ∧ (∀ exceptions, isOutputFormatException (.ows exceptions) = true ↔
        ∃ exc ∈ exceptions,
          strContains (lowerStr exc.text) "outputformat" = true
          ∨ strContains (lowerStr (exc.exceptionCode.getD ""))
              "invalidparametervalue" = true
          ∨ strContains (lowerStr (exc.exceptionCode.getD ""))
              "operationprocessingfailed" = true)
    ∧ isOutputFormatException .transport = false := by
  refine ⟨rfl, ?_, ?_, ?_, rfl⟩
  · intro r hr
    simp only [getFeatureDispatch, GEOJSON_OUTPUT_FORMATS, List.headD]
    rw [hr]
  · intro e he
    constructor
    · intro hpred
      simp only [getFeatureDispatch, GEOJSON_OUTPUT_FORMATS, List.headD]
      rw [he]
      simp only [hpred, if_true]
      cases hn : send none <;> simp [Except.map, hn]
    · intro hpred
      simp only [getFeatureDispatch, GEOJSON_OUTPUT_FORMATS, List.headD]
      rw [he]
      simp [hpred]
  · intro exceptions
    simp [isOutputFormatException, List.any_eq_true, Bool.or_eq_true, or_assoc]

/-- Witness for C1 at a concrete failing exchange: the first attempt
(with the defaulted `"application/json"` format) fails with an
`InvalidParameterValue` exception naming `outputFormat`, the predicate
accepts it, and the dispatcher returns the parse of the format-free
retry. -/
theorem claim_C1_witness :
    c1Send (some "application/json") = .error c1Err
    ∧ isOutputFormatException c1Err = true
    ∧ getFeatureDispatch c1Send c1Parse none = (c1Send none).map c1Parse
    ∧ getFeatureDispatch c1Send c1Parse none = .ok "parsed:xml-payload" :=
  ⟨rfl, by decide,
    ((claim_C1 c1Send c1Parse none).2.2.1 c1Err rfl).1 (by decide),
    by rfl⟩

/-- C10: `parseFeatureCollection` is total; a payload recognized as a
GeoJSON feature collection (an object with `type: "FeatureCollection"`
and an array `features`) is returned as-is, and every other non-string
payload — as well as every string payload whose parsed tree contains
no `FeatureCollection` or `SimpleFeatureCollection` element — yields
the empty feature collection, which carries no lock identifier. -/
theorem claim_C10 (strategy : AxisOrderStrategyL) (v t : JsonVal) :
    (isGeoJsonFeatureCollection v = true →
      parseFeatureCollection (.nonString v) strategy = .passthrough v)
    ∧ (isGeoJsonFeatureCollection v = false →
      parseFeatureCollection (.nonString v) strategy = .built emptyFeatureCollection)
    ∧ (getNodeByLocalName t "FeatureCollection" = none →
       getNodeByLocalName t "SimpleFeatureCollection" = none →
       parseFeatureCollection (.xmlString t) strategy = .built emptyFeatureCollection)
    ∧ emptyFeatureCollection.features = []
    ∧ emptyFeatureCollection.lockId = none := by
  refine ⟨?_, ?_, ?_, rfl, rfl⟩
  · intro hgeo
    simp [parseFeatureCollection, hgeo]
  · intro hgeo
    simp [parseFeatureCollection, hgeo]
  · intro h1 h2
    simp [parseFeatureCollection, h1, h2]

/-- Witness for C10: the passthrough case on a concrete GeoJSON
object, the empty fallback on a concrete non-string value, and the
empty fallback on a concrete tree without a feature-collection
element. -/
theorem claim_C10_witness :
    isGeoJsonFeatureCollection c10FcObj = true
    ∧ parseFeatureCollection (.nonString c10FcObj) .preserve = .passthrough c10FcObj
    ∧ isGeoJsonFeatureCollection (.num 3) = false
    ∧ parseFeatureCollection (.nonString (.num 3)) .preserve
        = .built emptyFeatureCollection
    ∧ parseFeatureCollection (.xmlString c10NoFcTree) .preserve
        = .built emptyFeatureCollection :=
  ⟨by decide,
    (claim_C10 .preserve c10FcObj c10NoFcTree).1 (by decide),
    by decide,
    (claim_C10 .preserve (.num 3) c10NoFcTree).2.1 (by decide),
    (claim_C10 .preserve c10FcObj c10NoFcTree).2.2.1 (by rfl) (by rfl)⟩

/-- C5: under the `preserve` axis-order strategy no coordinate swap
ever occurs; under `forceLonLat` the first and second components of a
decoded tuple (of length at least two) are swapped exactly when the
governing srsName contains the substring `"4326"` case-insensitively,
and are left unchanged otherwise; components beyond the second are
never reordered; consequently a decoded Point under `forceLonLat`
with a 4326 reference system has its first and second coordinate
swapped relative to `preserve` decoding of the same source, and no
swap occurs for a non-4326 reference system. -/
theorem claim_C5 :
    (∀ (coords : List Int) (srs : Option String),
      maybeSwap coords .preserve srs = coords)
    ∧ (∀ (a b : Int) (rest : List Int) (srs : String),
        maybeSwap (a :: b :: rest) .forceLonLat (some srs)
          = if strContains (lowerStr srs) "4326" = true then b :: a :: rest
            else a :: b :: rest)
    ∧ (∀ (coords : List Int) (srs : Option String),
        strContains (lowerStr (srs.getD "")) "4326" = false →
        maybeSwap coords .forceLonLat srs = coords)
    ∧ (∀ (a b : Int) (rest : List Int), (swap12 (a :: b :: rest)).drop 2 = rest)
    ∧ (∀ (v : JsonVal) (srs : Option String) (cs : List Int),
        parsePoint v .preserve srs = some (.point cs) →
        (strContains (lowerStr (srs.getD "")) "4326" = true →
          parsePoint v .forceLonLat srs = some (.point (swap12 cs)))
        ∧ (strContains (lowerStr (srs.getD "")) "4326" = false →
          parsePoint v .forceLonLat srs = some (.point cs))) := by
  have hpres : ∀ (coords : List Int) (srs : Option String),
      maybeSwap coords .preserve srs = coords := by
    intro coords srs
    simp [maybeSwap]
  have hswap : ∀ (coords : List Int) (srs : Option String),
      ¬coords.length < 2 →
      strContains (lowerStr (srs.getD "")) "4326" = true →
      maybeSwap coords .forceLonLat srs = swap12 coords := by
    intro coords srs hlen h4
    simp [maybeSwap, hlen, h4]
  have hnoswap : ∀ (coords : List Int) (srs : Option String),
      strContains (lowerStr (srs.getD "")) "4326" = false →
      maybeSwap coords .forceLonLat srs = coords := by
    intro coords srs h4
    by_cases hlen : coords.length < 2
    · simp [maybeSwap, hlen]
    · simp [maybeSwap, hlen, h4]
  refine ⟨hpres, ?_, hnoswap, fun a b rest => rfl, ?_⟩
  · intro a b rest srs
    by_cases h4 : strContains (lowerStr srs) "4326" = true
    · rw [if_pos h4]
      exact hswap (a :: b :: rest) (some srs) (by simp) h4
    · rw [if_neg h4]
      exact hnoswap (a :: b :: rest) (some srs) (by simpa using h4)
  · intro v srs cs h
    rcases hext : (extractNodeTextByLocalName v "pos") <|>
        (extractNodeTextByLocalName v "coordinates") with _ | text
    · simp [parsePoint, hext] at h
    · have hval : ∀ strat, parsePoint v strat srs
          = if text = "" then none
            else if (parseNumbers text).length < 2 then none
            else some (.point (maybeSwap (parseNumbers text) strat srs)) := by
        intro strat
        simp only [parsePoint, hext]
      rw [hval] at h
      by_cases ht : text = ""
      · rw [if_pos ht] at h
        exact absurd h (by simp)
      · rw [if_neg ht] at h
        by_cases hlen : (parseNumbers text).length < 2
        · rw [if_pos hlen] at h
          exact absurd h (by simp)
        · rw [if_neg hlen] at h
          have hcs : cs = parseNumbers text := by
            rw [hpres (parseNumbers text) srs] at h
            simpa using h.symm
          constructor
          · intro h4
            rw [hval, if_neg ht, if_neg hlen,
              hswap (parseNumbers text) srs hlen h4, hcs]
          · intro h4
            rw [hval, if_neg ht, if_neg hlen,
              hnoswap (parseNumbers text) srs h4, hcs]

/-- Witness for C5: a concrete `gml:Point` node decodes to
`[40, 20]` under `preserve` and to the swapped `[20, 40]` under
`forceLonLat` with reference system `EPSG:4326`. -/
theorem claim_C5_witness :
    parsePoint c5PointNode .preserve (some "EPSG:4326") = some (.point [40, 20])
    ∧ strContains (lowerStr ((some "EPSG:4326" : Option String).getD "")) "4326" = true
    ∧ parsePoint c5PointNode .forceLonLat (some "EPSG:4326") = some (.point [20, 40])
    ∧ maybeSwap [40, 20] .preserve (some "EPSG:4326") = [40, 20] :=
  ⟨by rfl, by decide,
    (claim_C5.2.2.2.2 c5PointNode (some "EPSG:4326") [40, 20] (by rfl)).1 (by decide),
    claim_C5.1 [40, 20] (some "EPSG:4326")⟩

/-- Helper for C6: when both the `wfs:`-prefixed and the bare key are
absent from the summary node, `firstByLocalName` finds no text. -/
theorem firstByLocalName_absent (s : JsonVal) (name wkey : String)
    (hw : "wfs:" ++ name = wkey) (h1 : jsIndex s wkey = none)
    (h2 : jsIndex s name = none) : firstByLocalName (some s) name = none := by
  subst hw
  simp [firstByLocalName, h1, h2, asArrayO]

/-- Helper for C6: a summary element present (under the `wfs:` key)
with parsed numeric value `0` yields the text `"0"`. -/
theorem firstByLocalName_zero (s : JsonVal) (name wkey : String)
    (hw : "wfs:" ++ name = wkey) (h1 : jsIndex s wkey = some (.num 0)) :
    firstByLocalName (some s) name = some "0" := by
  subst hw
  simp [firstByLocalName, h1, asArrayO, asArrayJ, valueText]
  rfl

/-- C6: for a transaction payload whose `TransactionSummary` omits one
of the total elements (neither a `wfs:`-prefixed nor a bare key is
present), the corresponding field of the parsed result is absent
(`none`), never coerced to zero; a total element present with value 0
parses to the number 0, so "not reported" and "reported as zero"
remain distinguishable. -/
theorem claim_C6 (t tx s : JsonVal)
    (htx : getNodeByLocalName t "TransactionResponse" = some tx)
    (hs : getNodeByLocalName tx "TransactionSummary" = some s) :
    ((jsIndex s "wfs:totalInserted" = none ∧ jsIndex s "totalInserted" = none) →
      (parseTransactionResult (.xmlString t)).totalInserted = none)
    ∧ ((jsIndex s "wfs:totalUpdated" = none ∧ jsIndex s "totalUpdated" = none) →
      (parseTransactionResult (.xmlString t)).totalUpdated = none)
    ∧ ((jsIndex s "wfs:totalReplaced" = none ∧ jsIndex s "totalReplaced" = none) →
      (parseTransactionResult (.xmlString t)).totalReplaced = none)
    ∧ ((jsIndex s "wfs:totalDeleted" = none ∧ jsIndex s "totalDeleted" = none) →
      (parseTransactionResult (.xmlString t)).totalDeleted = none)
    ∧ (jsIndex s "wfs:totalInserted" = some (.num 0) →
      (parseTransactionResult (.xmlString t)).totalInserted = some 0)
    ∧ (jsIndex s "wfs:totalUpdated" = some (.num 0) →
      (parseTransactionResult (.xmlString t)).totalUpdated = some 0)
    ∧ (jsIndex s "wfs:totalReplaced" = some (.num 0) →
      (parseTransactionResult (.xmlString t)).totalReplaced = some 0)
    ∧ (jsIndex s "wfs:totalDeleted" = some (.num 0) →
      (parseTransactionResult (.xmlString t)).totalDeleted = some 0) := by
  refine ⟨?_, ?_, ?_, ?_, ?_, ?_, ?_, ?_⟩
  · rintro ⟨h1, h2⟩
    simp only [parseTransactionResult, htx, hs,
      firstByLocalName_absent s "totalInserted" _ rfl h1 h2, toNumber]
  · rintro ⟨h1, h2⟩
    simp only [parseTransactionResult, htx, hs,
      firstByLocalName_absent s "totalUpdated" _ rfl h1 h2, toNumber]
  · rintro ⟨h1, h2⟩
    simp only [parseTransactionResult, htx, hs,
      firstByLocalName_absent s "totalReplaced" _ rfl h1 h2, toNumber]
  · rintro ⟨h1, h2⟩
    simp only [parseTransactionResult, htx, hs,
      firstByLocalName_absent s "totalDeleted" _ rfl h1 h2, toNumber]
  · intro h1
    simp only [parseTransactionResult, htx, hs,
      firstByLocalName_zero s "totalInserted" _ rfl h1]
    decide
  · intro h1
    simp only [parseTransactionResult, htx, hs,
      firstByLocalName_zero s "totalUpdated" _ rfl h1]
    decide
  · intro h1
    simp only [parseTransactionResult, htx, hs,
      firstByLocalName_zero s "totalReplaced" _ rfl h1]
    decide
  · intro h1
    simp only [parseTransactionResult, htx, hs,
      firstByLocalName_zero s "totalDeleted" _ rfl h1]
    decide

/-- Witness for C6: a concrete response reporting `totalInserted` as
`0` and omitting `totalUpdated`: the parsed result distinguishes
`some 0` from `none`. -/
theorem claim_C6_witness :
    getNodeByLocalName c6TxTree "TransactionResponse" = some c6TxNode
    ∧ getNodeByLocalName c6TxNode "TransactionSummary" = some c6Summary
    ∧ (parseTransactionResult (.xmlString c6TxTree)).totalInserted = some 0
    ∧ (parseTransactionResult (.xmlString c6TxTree)).totalUpdated = none :=
  ⟨by rfl, by rfl,
    (claim_C6 c6TxTree c6TxNode c6Summary rfl rfl).2.2.2.2.1 (by rfl),
    (claim_C6 c6TxTree c6TxNode c6Summary rfl rfl).2.1 ⟨by rfl, by rfl⟩⟩

/-- C7 (amended): the per-action result blocks have their resource
identifiers extracted only from elements whose local name is
`ResourceId` (under any prefix), taking the `rid` attribute and
falling back to `fid`; elements named `FeatureId` are not consulted,
so a Feature node whose only children are `FeatureId` elements yields
no resource identifiers.  Concretely, a Feature carrying
`fes:ResourceId rid="a"`, `ogc:FeatureId fid="b"` and
`wfs:ResourceId fid="c"` yields exactly `["a", "c"]`. -/
theorem claim_C7 (t tx node : JsonVal) :
    (getNodeByLocalName t "TransactionResponse" = some tx →
      (parseTransactionResult (.xmlString t)).insertResults
          = parseActionResults tx "InsertResults"
        ∧ (parseTransactionResult (.xmlString t)).updateResults
          = parseActionResults tx "UpdateResults"
        ∧ (parseTransactionResult (.xmlString t)).replaceResults
          = parseActionResults tx "ReplaceResults")
    ∧ (∀ name, getNodeByLocalName tx name = some node →
        parseActionResults tx name
          = (collectNodesByLocalName node "Feature").map fun featureNode =>
              { handle := jsIndex featureNode "@_handle"
                resourceIds :=
                  (collectNodesByLocalName featureNode "ResourceId").filterMap
                    fun ridNode =>
                      match (jsIndexCo ridNode "@_rid") <|>
                            (jsIndexCo ridNode "@_fid") with
                      | some v => if jsTruthy v then some v else none
                      | none => none })
    ∧ (parseTransactionResult (.xmlString c7MixedTree)).insertResults
        = [{ handle := none, resourceIds := [.str "a", .str "c"] }] := by
  refine ⟨?_, ?_, by rfl⟩
  · intro h
    exact ⟨by simp only [parseTransactionResult, h],
      by simp only [parseTransactionResult, h],
      by simp only [parseTransactionResult, h]⟩
  · intro name h
    simp only [parseActionResults, h]

/-- Witness for C7's amended statement at the concrete mixed tree:
both `ResourceId` shapes (any prefix, `rid` or `fid`) are extracted
and the `FeatureId` element is ignored. -/
theorem claim_C7_witness :
    getNodeByLocalName c7MixedTree "TransactionResponse" = some c7MixedTxNode
    ∧ (parseTransactionResult (.xmlString c7MixedTree)).insertResults
        = parseActionResults c7MixedTxNode "InsertResults"
    ∧ parseActionResults c7MixedTxNode "InsertResults"
        = [{ handle := none, resourceIds := [.str "a", .str "c"] }] :=
  ⟨by rfl, ((claim_C7 c7MixedTree c7MixedTxNode .null).1 rfl).1, by rfl⟩

/-- Counterexample to C7 as stated: a per-feature node whose only
child is `<ogc:FeatureId fid="x"/>` yields an empty `resourceIds`
list — the per-action parser collects only `ResourceId`-named
elements, so the claimed extraction from `FeatureId` elements does not
happen. -/
theorem claim_C7_counterexample :
    collectNodesByLocalName c7FeatureNode "FeatureId"
        = [.obj (.cons "@_fid" (.str "x") .nil)]
    ∧ jsIndex (.obj (.cons "@_fid" (.str "x") .nil)) "@_fid" = some (.str "x")
    ∧ (parseTransactionResult (.xmlString c7FidTree)).insertResults
        = [{ handle := none, resourceIds := [] }] :=
  ⟨by rfl, by rfl, by rfl⟩

/-- Appending the empty string on the left is the identity. -/
theorem strEmptyAppend (s : String) : "" ++ s = s := by
  cases s with
  | mk d => rfl

/-- Appending the empty string on the right is the identity. -/
theorem strAppendEmpty (s : String) : s ++ "" = s := by
  cases s with
  | mk d => exact congrArg String.mk (List.append_nil d)

/-- The empty slice. -/
theorem jsSlice_zero (s : String) : jsSlice s 0 0 = "" := rfl

/-- Slicing the whole string. -/
theorem jsSlice_full (s : String) : jsSlice s 0 s.data.length = s := by
  cases s with
  | mk d => simp [jsSlice]

/-- The suffix starting at the end is empty. -/
theorem jsSliceFrom_length (s : String) : jsSliceFrom s s.data.length = "" := by
  cases s with
  | mk d => simp [jsSliceFrom]

/-- A string ending in `"/>"` has no trailing whitespace to trim. -/
theorem strTrimEnd_endsGt (s : String) (h : strEndsWith s "/>" = true) :
    strTrimEnd s = s := by
  cases s with
  | mk d =>
    simp only [strEndsWith] at h
    rcases hd : d.reverse with _ | ⟨c, t⟩
    · rw [hd] at h
      simp [leadMatch] at h
    · rw [hd] at h
      simp only [leadMatch, Bool.and_eq_true, decide_eq_true_eq] at h
      simp only [strTrimEnd, hd]
      rw [← h.1]
      rw [List.dropWhile_cons]
      simp only [show ('>').isWhitespace = false from rfl, Bool.false_eq_true,
        if_false]
      have : ('>' :: t) = d.reverse := by rw [hd, h.1]
      rw [this, List.reverse_reverse]

/-- C8 (amended): replacing a self-closing root element that spans the
whole document yields exactly the supplied override XML; an override
whose target opening-tag text `<target` does not occur anywhere in
the document is a silent no-op.  (Matching is by raw substring, so
"target element absent" must be read as "opening-tag text absent": a
target that is a proper prefix of another element name matches that
element — see the counterexample.)  Concretely, the self-closing
`ListStoredQueries` document produced by the serializer is replaced
verbatim. -/
theorem claim_C8 (doc target x : String) (ov : XmlOverrideL) :
    (jsIndexOfFrom doc ("<" ++ target) 0 = some 0 →
     jsIndexOfFrom doc ">" 0 = some (doc.data.length - 1) →
     strEndsWith doc "/>" = true →
     applyXmlOverrides doc [{ target := target, position := some .replace, xml := x }]
       = x)
    ∧ (jsIndexOfFrom doc ("<" ++ ov.target) 0 = none →
       applyXmlOverrides doc [ov] = doc)
    ∧ buildListStoredQueriesXml [] c8Ctx = .ok lsqXml
    ∧ applyXmlOverrides lsqXml [c8Override] = "<my:Op/>" := by
  refine ⟨?_, ?_, by rfl, by rfl⟩
  · intro h1 h2 hend
    have hne : doc.data ≠ [] := by
      intro he
      simp [jsIndexOfFrom, he, firstSubIdx] at h2
    have hlen1 : 0 < doc.data.length := by
      cases hdd : doc.data with
      | nil => exact absurd hdd hne
      | cons a l => simp [hdd]
    have hstep : doc.data.length - 1 + 1 = doc.data.length :=
      Nat.succ_pred_eq_of_pos hlen1
    simp only [applyXmlOverrides, List.isEmpty, List.foldl, applyXmlOverride,
      h1, h2, hstep, jsSlice_full, strTrimEnd_endsGt doc hend, hend,
      Option.getD, jsSlice_zero, jsSliceFrom_length, strEmptyAppend,
      strAppendEmpty]
    simp [jsSliceFrom_length, strAppendEmpty]
    rw [show doc.length = doc.data.length from rfl, jsSliceFrom_length,
      strAppendEmpty]
  · intro h
    simp [applyXmlOverrides, applyXmlOverride, h]

/-- Witness for C8: the serializer's self-closing `ListStoredQueries`
root spans its whole document and is replaced verbatim by the
override XML. -/
theorem claim_C8_witness :
    jsIndexOfFrom lsqXml ("<" ++ "wfs:ListStoredQueries") 0 = some 0
    ∧ jsIndexOfFrom lsqXml ">" 0 = some (lsqXml.data.length - 1)
    ∧ strEndsWith lsqXml "/>" = true
    ∧ applyXmlOverrides lsqXml
        [{ target := "wfs:ListStoredQueries", position := some .replace,
           xml := "<my:Op/>" }] = "<my:Op/>" :=
  ⟨by decide, by decide, by decide,
    (claim_C8 lsqXml "wfs:ListStoredQueries" "<my:Op/>" c8Override).1
      (by decide) (by decide) (by decide)⟩

/-- Counterexample to C8 as stated: in the document `<ab/>` no element
named `a` occurs (the only element is `ab`, and no opening tag `<a` is
followed by a name-ending delimiter), yet an override targeting `a`
rewrites the document because the splice matches the raw substring
`<a`. -/
theorem claim_C8_counterexample :
    applyXmlOverrides "<ab/>" [{ target := "a", position := some .replace, xml := "X" }]
        = "X"
    ∧ ("X" : String) ≠ "<ab/>"
    ∧ strContains "<ab/>" "<a " = false
    ∧ strContains "<ab/>" "<a>" = false
    ∧ strContains "<ab/>" "<a/" = false :=
  ⟨by rfl, by decide, by decide, by decide, by decide⟩

/-- A list is an initial segment of its own extension. -/
theorem leadMatch_self_append (l t : List Char) : leadMatch l (l ++ t) = true := by
  induction l with
  | nil => rfl
  | cons a as ih => simp [leadMatch, ih]

/-- A needle embedded between two contexts is found by the substring
scan. -/
theorem firstSubIdx_embed (needle pre post : List Char) :
    (firstSubIdx needle (pre ++ (needle ++ post))).isSome = true := by
  induction pre with
  | nil =>
    cases needle with
    | nil => cases post <;> simp [firstSubIdx, leadMatch]
    | cons n ns =>
      simp only [List.nil_append]
      have h := leadMatch_self_append (n :: ns) post
      simp only [List.cons_append] at h
      simp [firstSubIdx, h]
  | cons c pre ih =>
    simp only [List.cons_append, firstSubIdx]
    by_cases hl : leadMatch needle (c :: (pre ++ (needle ++ post)))
    · simp [hl]
    · simp [hl, ih]

/-- The missing-namespace error text contains the offending head. -/
theorem strContains_missingNsMsg (p : String) :
    strContains (missingNsMsg p) p = true := by
  cases p with
  | mk d =>
    simp only [missingNsMsg, strContains]
    have hdata :
        (("Missing namespace mapping for prefix \"" ++ String.mk d)
            ++ "\". Provide it via WfsClientConfig.namespaces.").data
          = "Missing namespace mapping for prefix \"".data
              ++ (d ++ "\". Provide it via WfsClientConfig.namespaces.".data) := by
      simp [List.append_assoc]
    rw [hdata]
    exact firstSubIdx_embed d _ _

/-- C2 (amended): for every XML-bodied (POST-style) GetFeature
request, if any referenced QName head (from the type names, projected
property names, or filter property references) is neither reserved nor
mapped to a URI, the request construction fails — before any transport
exchange — with an error whose text names an offending head; when no
referenced head offends, construction succeeds.  The reserved protocol
heads are always satisfied by built-in defaults and never offend,
whatever the caller configured. -/
theorem claim_C2 (opts : GetFeatureOptionsL) (ctx : SerializerContextL) :
    (∀ p ∈ getFeatureRequiredHeads opts, nsOffending ctx p = true →
      ∃ q ∈ getFeatureRequiredHeads opts, nsOffending ctx q = true ∧
        prepareGetFeature .post opts ctx = .error (missingNsMsg q)
        ∧ strContains (missingNsMsg q) q = true)
    ∧ ((∀ p ∈ getFeatureRequiredHeads opts, nsOffending ctx p = false) →
      (prepareGetFeature .post opts ctx).isOk = true)
    ∧ (∀ p ∈ reservedNsKeys, nsOffending ctx p = false) := by
  refine ⟨?_, ?_, ?_⟩
  · intro p hp hoff
    cases hf : (getFeatureRequiredHeads opts).find? (nsOffending ctx) with
    | none =>
      exact absurd hoff (by simpa using List.find?_eq_none.mp hf p hp)
    | some q =>
      refine ⟨q, List.mem_of_find?_eq_some hf, List.find?_some hf, ?_,
        strContains_missingNsMsg q⟩
      simp only [prepareGetFeature, buildGetFeatureXml, resolveRootNamespaces, hf]
  · intro hall
    have hf : (getFeatureRequiredHeads opts).find? (nsOffending ctx) = none :=
      List.find?_eq_none.mpr (fun p hp => by simp [hall p hp])
    simp only [prepareGetFeature, buildGetFeatureXml, resolveRootNamespaces, hf]
    rfl
  · intro p hp
    have hc : reservedNsKeys.contains p = true := by
      fin_cases hp <;> rfl
    simp only [nsOffending, hc, Bool.not_true, Bool.false_and]

/-- Witness for C2's amended statement: a GetFeature request for
`foo:bar` with no configured namespace for `foo`, prepared in POST
style, fails with the missing-namespace error naming `foo`. -/
theorem claim_C2_witness :
    "foo" ∈ getFeatureRequiredHeads c2Opts
    ∧ nsOffending c2Ctx "foo" = true
    ∧ (∃ q ∈ getFeatureRequiredHeads c2Opts, nsOffending c2Ctx q = true ∧
        prepareGetFeature .post c2Opts c2Ctx = .error (missingNsMsg q)
        ∧ strContains (missingNsMsg q) q = true) :=
  ⟨by decide, by decide,
    (claim_C2 c2Opts c2Ctx).1 "foo" (by decide) (by decide)⟩

/-- Counterexample to C2 as stated: the same request prepared in GET
style (the default request style of the dispatcher's `getFeature`)
performs no namespace validation at all — the KVP request referencing
the unmapped, non-reserved head `foo` is built successfully and would
be sent on the wire, so the operation does not "fail before any
network call". -/
theorem claim_C2_counterexample :
    "foo" ∈ getFeatureRequiredHeads c2Opts
    ∧ ("foo" ∈ reservedNsKeys → False)
    ∧ nsOffending c2Ctx "foo" = true
    ∧ resolveRootNamespaces c2Ctx ["foo"] = .error (missingNsMsg "foo")
    ∧ prepareGetFeature .get c2Opts c2Ctx
        = .ok (.getReq (buildGetFeatureKvp c2Opts .v202))
    ∧ kvpGet (buildGetFeatureKvp c2Opts .v202) "typeNames" = some "foo:bar" :=
  ⟨by decide, by decide, by decide, by rfl, by rfl, by rfl⟩

/-- In-place update leaves lookups for other keys unchanged
(map part). -/
theorem find?_mapUpd (k v k' : String) (h : k' ≠ k) :
    ∀ m : List (String × String),
      (List.find? (fun p => p.1 = k') (m.map fun p => if p.1 = k then (k, v) else p))
        = List.find? (fun p => p.1 = k') m := by
  intro m
  have hkk : ¬(k = k') := fun he => h he.symm
  induction m with
  | nil => rfl
  | cons a rest ih =>
    by_cases hak : a.1 = k
    · have hak' : ¬(a.1 = k') := by rw [hak]; exact hkk
      simp [List.find?_cons, hak, hak', hkk, ih]
    · by_cases hk' : a.1 = k'
      · simp [List.find?_cons, hak, hk', h]
      · simp [List.find?_cons, hak, hk', ih]

/-- Appending a new binding leaves lookups for other keys unchanged. -/
theorem find?_appendOne (k v k' : String) (h : k' ≠ k) :
    ∀ m : List (String × String),
      List.find? (fun p => p.1 = k') (m ++ [(k, v)])
        = List.find? (fun p => p.1 = k') m := by
  intro m
  have hkk : ¬(k = k') := fun he => h he.symm
  induction m with
  | nil => simp [List.find?_cons, hkk]
  | cons a rest ih =>
    by_cases hk' : a.1 = k'
    · simp [List.find?_cons, hk']
    · simp [List.find?_cons, hk', ih]

/-- `objUpd` leaves lookups for other keys unchanged. -/
theorem kvpGet_objUpd_ne (m : List (String × String)) (k v k' : String)
    (h : k' ≠ k) : kvpGet (objUpd m k v) k' = kvpGet m k' := by
  by_cases hany : m.any (fun p => p.1 = k)
  · simp [objUpd, kvpGet, hany, find?_mapUpd k v k' h]
  · simp [objUpd, kvpGet, hany, find?_appendOne k v k' h]

/-- In-place update stores the new value (map part). -/
theorem find?_mapUpd_self (k v : String) :
    ∀ m : List (String × String), m.any (fun p => p.1 = k) = true →
      (List.find? (fun p => p.1 = k) (m.map fun p => if p.1 = k then (k, v) else p))
        = some (k, v) := by
  intro m
  induction m with
  | nil => intro hany; simp at hany
  | cons a rest ih =>
    intro hany
    by_cases hak : a.1 = k
    · simp [List.find?_cons, hak]
    · have hrest : rest.any (fun p => p.1 = k) = true := by
        simp [List.any_cons, hak] at hany
        simpa using hany
      simp [List.find?_cons, hak, ih hrest]

/-- Appending a new binding stores the new value. -/
theorem find?_appendOne_self (k v : String) :
    ∀ m : List (String × String), m.any (fun p => p.1 = k) = false →
      List.find? (fun p => p.1 = k) (m ++ [(k, v)]) = some (k, v) := by
  intro m
  induction m with
  | nil => intro _; simp [List.find?_cons]
  | cons a rest ih =>
    intro hany
    have hak : ¬(a.1 = k) := by
      intro he
      simp [List.any_cons, he] at hany
    have hrest : rest.any (fun p => p.1 = k) = false := by
      simp [List.any_cons, hak] at hany
      simpa using hany
    simp [List.find?_cons, hak, ih hrest]

/-- `objUpd` stores the new value under its key. -/
theorem kvpGet_objUpd_self (m : List (String × String)) (k v : String) :
    kvpGet (objUpd m k v) k = some v := by
  by_cases hany : m.any (fun p => p.1 = k) = true
  · unfold objUpd kvpGet
    rw [if_pos hany, find?_mapUpd_self k v m hany]
    rfl
  · have hf : m.any (fun p => p.1 = k) = false := Bool.eq_false_iff.mpr hany
    unfold objUpd kvpGet
    rw [if_neg hany, find?_appendOne_self k v m hf]
    rfl

/-- The `match c with | some n => objUpd … | none => …` shape of the
count stage is a `setOpt`. -/
theorem countStage_eq (P : List (String × String)) (key : String) (c : Option Int) :
    (match c with
     | some n => objUpd P key (toString n)
     | none => P) = setOpt P key (c.map toString) := by
  cases c <;> rfl

/-- `setOpt` leaves lookups for other keys unchanged. -/
theorem kvpGet_setOpt_ne (m : List (String × String)) (k : String)
    (v : Option String) (k' : String) (h : k' ≠ k) :
    kvpGet (setOpt m k v) k' = kvpGet m k' := by
  cases v with
  | none => rfl
  | some s => simp [setOpt, kvpGet_objUpd_ne m k s k' h]

/-- `setOpt` over a key that was previously unset evaluates to the
assigned optional value. -/
theorem kvpGet_setOpt_eval (m : List (String × String)) (k : String)
    (v : Option String) (h0 : kvpGet m k = none) :
    kvpGet (setOpt m k v) k = v := by
  cases v with
  | none => exact h0
  | some s => simp [setOpt, kvpGet_objUpd_self m k s]

/-- `setTruthy` leaves lookups for other keys unchanged. -/
theorem kvpGet_setTruthy_ne (m : List (String × String)) (k : String)
    (v : Option String) (k' : String) (h : k' ≠ k) :
    kvpGet (setTruthy m k v) k' = kvpGet m k' := by
  cases v with
  | none => rfl
  | some s =>
    by_cases hs : s = "" <;> simp [setTruthy, hs, kvpGet_objUpd_ne m k s k' h]

/-- `objAssign` leaves lookups unchanged for keys none of the
assigned entries mention. -/
theorem kvpGet_objAssign_ne (extra : List (String × String)) :
    ∀ (m : List (String × String)) (k : String),
      (∀ kv ∈ extra, kv.1 ≠ k) →
      kvpGet (objAssign m extra) k = kvpGet m k := by
  induction extra with
  | nil => intro m k _; rfl
  | cons kv rest ih =>
    intro m k hk
    have h1 : kv.1 ≠ k := hk kv (by simp)
    have h2 : ∀ q ∈ rest, q.1 ≠ k := fun q hq => hk q (by simp [hq])
    calc kvpGet (objAssign (objUpd m kv.1 kv.2) rest) k
        = kvpGet (objUpd m kv.1 kv.2) k := ih (objUpd m kv.1 kv.2) k h2
      _ = kvpGet m k := kvpGet_objUpd_ne m kv.1 kv.2 k (fun he => h1 he.symm)

/-- `applyGeoServerParams` leaves lookups unchanged for keys distinct
from its fixed vendor keys and not mentioned by the vendor-parameter
table. -/
theorem kvpGet_applyGeoServer_ne (m : List (String × String))
    (g : Option GeoServerOptionsL) (k : String)
    (h1 : k ≠ "cql_filter") (h2 : k ≠ "viewParams") (h3 : k ≠ "format_options")
    (hv : ∀ kv ∈ (g.bind (·.vendorParams)).getD [], kv.1 ≠ k) :
    kvpGet (applyGeoServerParams m g) k = kvpGet m k := by
  cases g with
  | none => rfl
  | some gs =>
    simp only [applyGeoServerParams]
    cases hvp : gs.vendorParams with
    | none =>
      simp only
      rw [kvpGet_setTruthy_ne _ _ _ _ h3, kvpGet_setTruthy_ne _ _ _ _ h2,
        kvpGet_setTruthy_ne _ _ _ _ h1]
    | some vp =>
      have hv' : ∀ kv ∈ vp, kv.1 ≠ k := by
        intro kv hkv
        exact hv kv (by simp [Option.bind, hvp, hkv])
      simp only
      rw [kvpGet_objAssign_ne vp _ _ hv', kvpGet_setTruthy_ne _ _ _ _ h3,
        kvpGet_setTruthy_ne _ _ _ _ h2, kvpGet_setTruthy_ne _ _ _ _ h1]

/-- Every `buildGetFeatureKvp` stage other than the count stage and
the base parameters leaves a version-1.1.0 lookup unchanged, provided
the key is not one the stages or the escape hatches write. -/
theorem kvpGet_build110 (opts : GetFeatureOptionsL) (K : String)
    (h1 : K ≠ "outputFormat") (h2 : K ≠ "srsName") (h3 : K ≠ "propertyName")
    (h4 : K ≠ "startIndex") (h5 : K ≠ "resultType") (h6 : K ≠ "filter")
    (h7 : K ≠ "bbox") (h8 : K ≠ "resolve") (h9 : K ≠ "resolveDepth")
    (h10 : K ≠ "resolveTimeout") (h11 : K ≠ "cql_filter") (h12 : K ≠ "viewParams")
    (h13 : K ≠ "format_options")
    (hraw : ∀ kv ∈ (opts.raw.bind (·.kvp)).getD [], kv.1 ≠ K)
    (hvendor : ∀ kv ∈ (opts.geoserver.bind (·.vendorParams)).getD [], kv.1 ≠ K) :
    kvpGet (buildGetFeatureKvp opts .v110) K
      = kvpGet (setOpt
          [("service", "WFS"), ("version", versionStr .v110),
           ("request", "GetFeature"),
           ("typeName", String.intercalate "," opts.typeNames)]
          "maxFeatures" (opts.count.map toString)) K := by
  rcases hc : opts.count with _ | n
  · simp only [buildGetFeatureKvp, hc, Option.map_none']
    rw [kvpGet_objAssign_ne _ _ _ hraw,
      kvpGet_applyGeoServer_ne _ _ _ h11 h12 h13 hvendor,
      kvpGet_setOpt_ne _ _ _ _ h10, kvpGet_setOpt_ne _ _ _ _ h9,
      kvpGet_setTruthy_ne _ _ _ _ h8, kvpGet_setOpt_ne _ _ _ _ h7,
      kvpGet_setOpt_ne _ _ _ _ h6, kvpGet_setTruthy_ne _ _ _ _ h5,
      kvpGet_setOpt_ne _ _ _ _ h4, kvpGet_setOpt_ne _ _ _ _ h3,
      kvpGet_setTruthy_ne _ _ _ _ h2, kvpGet_setTruthy_ne _ _ _ _ h1]
    rfl
  · simp only [buildGetFeatureKvp, hc, Option.map_some', if_true]
    rw [kvpGet_objAssign_ne _ _ _ hraw,
      kvpGet_applyGeoServer_ne _ _ _ h11 h12 h13 hvendor,
      kvpGet_setOpt_ne _ _ _ _ h10, kvpGet_setOpt_ne _ _ _ _ h9,
      kvpGet_setTruthy_ne _ _ _ _ h8, kvpGet_setOpt_ne _ _ _ _ h7,
      kvpGet_setOpt_ne _ _ _ _ h6, kvpGet_setTruthy_ne _ _ _ _ h5]
    by_cases hK : K = "maxFeatures"
    · subst hK
      simp only [setOpt]
      rw [kvpGet_objUpd_self, kvpGet_objUpd_self]
    · rw [kvpGet_objUpd_ne _ _ _ _ hK, kvpGet_setOpt_ne _ _ _ _ hK,
        kvpGet_setOpt_ne _ _ _ _ h4, kvpGet_setOpt_ne _ _ _ _ h3,
        kvpGet_setTruthy_ne _ _ _ _ h2, kvpGet_setTruthy_ne _ _ _ _ h1]

/-- Every `buildGetFeatureKvp` stage other than the count stage and
the base parameters leaves a version-2.0.2 lookup unchanged, provided
the key is not one the stages or the escape hatches write. -/
theorem kvpGet_build202 (opts : GetFeatureOptionsL) (K : String)
    (h1 : K ≠ "outputFormat") (h2 : K ≠ "srsName") (h3 : K ≠ "propertyName")
    (h4 : K ≠ "startIndex") (h5 : K ≠ "resultType") (h6 : K ≠ "filter")
    (h7 : K ≠ "bbox") (h8 : K ≠ "resolve") (h9 : K ≠ "resolveDepth")
    (h10 : K ≠ "resolveTimeout") (h11 : K ≠ "cql_filter") (h12 : K ≠ "viewParams")
    (h13 : K ≠ "format_options")
    (hraw : ∀ kv ∈ (opts.raw.bind (·.kvp)).getD [], kv.1 ≠ K)
    (hvendor : ∀ kv ∈ (opts.geoserver.bind (·.vendorParams)).getD [], kv.1 ≠ K) :
    kvpGet (buildGetFeatureKvp opts .v202) K
      = kvpGet (setOpt
          [("service", "WFS"), ("version", versionStr .v202),
           ("request", "GetFeature"),
           ("typeNames", String.intercalate "," opts.typeNames)]
          "count" (opts.count.map toString)) K := by
  rcases hc : opts.count with _ | n
  · simp only [buildGetFeatureKvp, hc, Option.map_none']
    rw [kvpGet_objAssign_ne _ _ _ hraw,
      kvpGet_applyGeoServer_ne _ _ _ h11 h12 h13 hvendor,
      kvpGet_setOpt_ne _ _ _ _ h10, kvpGet_setOpt_ne _ _ _ _ h9,
      kvpGet_setTruthy_ne _ _ _ _ h8, kvpGet_setOpt_ne _ _ _ _ h7,
      kvpGet_setOpt_ne _ _ _ _ h6, kvpGet_setTruthy_ne _ _ _ _ h5,
      kvpGet_setOpt_ne _ _ _ _ h4, kvpGet_setOpt_ne _ _ _ _ h3,
      kvpGet_setTruthy_ne _ _ _ _ h2, kvpGet_setTruthy_ne _ _ _ _ h1]
    rfl
  · simp only [buildGetFeatureKvp, hc, Option.map_some',
      eq_false (by decide : ¬(WfsVersionL.v202 = WfsVersionL.v110)), if_false]
    rw [kvpGet_objAssign_ne _ _ _ hraw,
      kvpGet_applyGeoServer_ne _ _ _ h11 h12 h13 hvendor,
      kvpGet_setOpt_ne _ _ _ _ h10, kvpGet_setOpt_ne _ _ _ _ h9,
      kvpGet_setTruthy_ne _ _ _ _ h8, kvpGet_setOpt_ne _ _ _ _ h7,
      kvpGet_setOpt_ne _ _ _ _ h6, kvpGet_setTruthy_ne _ _ _ _ h5]
    by_cases hK : K = "count"
    · subst hK
      simp only [setOpt]
      rw [kvpGet_objUpd_self, kvpGet_objUpd_self]
    · rw [kvpGet_objUpd_ne _ _ _ _ hK, kvpGet_setOpt_ne _ _ _ _ hK,
        kvpGet_setOpt_ne _ _ _ _ h4, kvpGet_setOpt_ne _ _ _ _ h3,
        kvpGet_setTruthy_ne _ _ _ _ h2, kvpGet_setTruthy_ne _ _ _ _ h1]

/-- C4 (amended): provided the raw-KVP and vendor-parameter escape
hatches do not themselves write the `typeName`, `typeNames`, `count`
or `maxFeatures` keys, `buildGetFeatureKvp` under version `1.1.0`
keys the type names under `typeName`, never emits `count`, and emits
a numeric count option as `maxFeatures`; under version `2.0.2` it
keys the type names under `typeNames`, never emits `maxFeatures`,
and emits a numeric count option as `count`. Without that proviso
the original claim is false: `options.raw.kvp` and vendor parameters
are `Object.assign`ed onto the parameter object last and can inject
any key. -/
theorem claim_C4 (opts : GetFeatureOptionsL)
    (hraw : ∀ kv ∈ (opts.raw.bind (·.kvp)).getD [],
      kv.1 ≠ "typeName" ∧ kv.1 ≠ "typeNames" ∧ kv.1 ≠ "count" ∧ kv.1 ≠ "maxFeatures")
    (hvendor : ∀ kv ∈ (opts.geoserver.bind (·.vendorParams)).getD [],
      kv.1 ≠ "typeName" ∧ kv.1 ≠ "typeNames" ∧ kv.1 ≠ "count" ∧ kv.1 ≠ "maxFeatures") :
    kvpGet (buildGetFeatureKvp opts .v110) "typeName"
        = some (String.intercalate "," opts.typeNames)
    ∧ kvpGet (buildGetFeatureKvp opts .v110) "count" = none
    ∧ kvpGet (buildGetFeatureKvp opts .v110) "maxFeatures" = opts.count.map toString
    ∧ kvpGet (buildGetFeatureKvp opts .v202) "typeNames"
        = some (String.intercalate "," opts.typeNames)
    ∧ kvpGet (buildGetFeatureKvp opts .v202) "maxFeatures" = none
    ∧ kvpGet (buildGetFeatureKvp opts .v202) "count" = opts.count.map toString := by
  refine ⟨?_, ?_, ?_, ?_, ?_, ?_⟩
  · rw [kvpGet_build110 opts "typeName" (by decide) (by decide) (by decide)
      (by decide) (by decide) (by decide) (by decide) (by decide) (by decide)
      (by decide) (by decide) (by decide) (by decide)
      (fun kv h => (hraw kv h).1) (fun kv h => (hvendor kv h).1),
      kvpGet_setOpt_ne _ _ _ _ (by decide)]
    rfl
  · rw [kvpGet_build110 opts "count" (by decide) (by decide) (by decide)
      (by decide) (by decide) (by decide) (by decide) (by decide) (by decide)
      (by decide) (by decide) (by decide) (by decide)
      (fun kv h => (hraw kv h).2.2.1) (fun kv h => (hvendor kv h).2.2.1),
      kvpGet_setOpt_ne _ _ _ _ (by decide)]
    rfl
  · rw [kvpGet_build110 opts "maxFeatures" (by decide) (by decide) (by decide)
      (by decide) (by decide) (by decide) (by decide) (by decide) (by decide)
      (by decide) (by decide) (by decide) (by decide)
      (fun kv h => (hraw kv h).2.2.2) (fun kv h => (hvendor kv h).2.2.2)]
    exact kvpGet_setOpt_eval _ _ _ rfl
  · rw [kvpGet_build202 opts "typeNames" (by decide) (by decide) (by decide)
      (by decide) (by decide) (by decide) (by decide) (by decide) (by decide)
      (by decide) (by decide) (by decide) (by decide)
      (fun kv h => (hraw kv h).2.1) (fun kv h => (hvendor kv h).2.1),
      kvpGet_setOpt_ne _ _ _ _ (by decide)]
    rfl
  · rw [kvpGet_build202 opts "maxFeatures" (by decide) (by decide) (by decide)
      (by decide) (by decide) (by decide) (by decide) (by decide) (by decide)
      (by decide) (by decide) (by decide) (by decide)
      (fun kv h => (hraw kv h).2.2.2) (fun kv h => (hvendor kv h).2.2.2),
      kvpGet_setOpt_ne _ _ _ _ (by decide)]
    rfl
  · rw [kvpGet_build202 opts "count" (by decide) (by decide) (by decide)
      (by decide) (by decide) (by decide) (by decide) (by decide) (by decide)
      (by decide) (by decide) (by decide) (by decide)
      (fun kv h => (hraw kv h).2.2.1) (fun kv h => (hvendor kv h).2.2.1)]
    exact kvpGet_setOpt_eval _ _ _ rfl

/-- C4 witness: for options with type names `["a", "b"]`, count `7`,
and no escape hatches, both versions place the parameters exactly as
the amended claim states. -/
theorem claim_C4_witness :
    kvpGet (buildGetFeatureKvp c4WitOpts .v110) "typeName" = some "a,b"
    ∧ kvpGet (buildGetFeatureKvp c4WitOpts .v110) "count" = none
    ∧ kvpGet (buildGetFeatureKvp c4WitOpts .v110) "maxFeatures" = some "7"
    ∧ kvpGet (buildGetFeatureKvp c4WitOpts .v202) "typeNames" = some "a,b"
    ∧ kvpGet (buildGetFeatureKvp c4WitOpts .v202) "maxFeatures" = none
    ∧ kvpGet (buildGetFeatureKvp c4WitOpts .v202) "count" = some "7" :=
  claim_C4 c4WitOpts
    (by intro kv h; simp [c4WitOpts, gfoBase] at h)
    (by intro kv h; simp [c4WitOpts, gfoBase] at h)

/-- C4 counterexample: the raw-KVP escape hatch defeats the claim as
stated; under version `1.1.0` a `count` parameter is emitted, and
under version `2.0.2` a `maxFeatures` parameter is emitted. -/
theorem claim_C4_counterexample :
    kvpGet (buildGetFeatureKvp c4OptsCount .v110) "count" = some "5"
    ∧ kvpGet (buildGetFeatureKvp c4OptsMax .v202) "maxFeatures" = some "9" :=
  ⟨rfl, rfl⟩
